import Mathlib

/-! code2tap: the TAP block framer, the header builders and the BASIC line encoder

A shallow embedding of `src/code2tap.cpp`.

Conventions of the embedding

* A byte (`typedef char byte`) is a `Nat`; a well-typed byte is below 256 and
  stands for the bit pattern of the `char`.  Every conversion of an `int` to a
  byte that the source performs is written `% 256`.
* A `vector<byte>` is a `List Nat`.
* An `int` is an `Int`.  For an `int` `x`, `x & 0xFF` is `x % 256` and
  `x >> 8` is `x / 256` (both round towards minus infinity for the positive
  divisor 256, as the arithmetic shift does).
* A `char*` string is the list of the bytes stored at the pointer; `strlen`
  counts the bytes before the first NUL (or the end of the list).
* A function that writes to the `FILE*` returns the list of bytes it appends
  to the file, in order.
* Undefined behaviour of the source (an out-of-bounds `data[1]`, a formatted
  line that does not fit the 1024-byte staging buffer) is `none`.
-/

namespace Code2Tap

/-! ## Block framer -/

/-- The byte `fputc` writes for the value `c`: `c` converted to `unsigned char`. -/
def fputc (c : Nat) : Nat := c % 256

/-- The two bytes `fwrite(&len, sizeof(len), 1, fp)` stores for the `int16_t`
holding `n` (truncated to 16 bits), low byte first as on the little-endian
hosts the tool is built for. -/
def fwrite_int16 (n : Nat) : List Nat :=
  let len := n % 65536
  [len % 256, len / 256]

/-- One pass of the loop `for( auto b : data )` of
`tap_write_data_block_with_checksum`: the state is the bytes written so far
and the running checksum. -/
def checksum_step (st : List Nat × Nat) (b : Nat) : List Nat × Nat :=
  (st.1 ++ [fputc b], st.2 ^^^ b)

/-- The bytes `tap_write_data_block_with_checksum(fp, flags, data)` appends to
`fp` (source lines 456-472). -/
def tap_write_data_block_with_checksum (flags : Nat) (data : List Nat) : List Nat :=
  -- int16_t len = data.size() + 2; fwrite(&len, ...)
  let out := fwrite_int16 (data.length + 2)
  -- fputc( flags, fp ); byte checksum = flags;
  let out := out ++ [fputc flags]
  let checksum := flags
  -- for( auto b : data ) { fputc( b, fp ); checksum ^= b; }
  let st := data.foldl checksum_step (out, checksum)
  -- fputc( checksum, fp );
  st.1 ++ [fputc st.2]

/-- Every element of the list is a well-typed byte. -/
def IsBytes (l : List Nat) : Prop := ∀ b ∈ l, b < 256

instance (l : List Nat) : Decidable (IsBytes l) := by
  unfold IsBytes; infer_instance

/-- XOR of all elements of a list, starting from `init`. -/
def xorFold (init : Nat) (l : List Nat) : Nat := l.foldl (· ^^^ ·) init

/-! ## Line encoder -/

/-- The C library `strlen` on the bytes stored at a `char*`: the number of
bytes before the first NUL. -/
def strlen (s : List Nat) : Nat := (s.takeWhile (· ≠ 0)).length

/-- The conversion of an `int` to a byte: its low eight bits. -/
def toByte (x : Int) : Nat := (x % 256).toNat

/-- The value of an `int` expression whose mathematical result is `x`:
two's-complement wrap-around to 32 bits. -/
def wrap32 (x : Int) : Int := (x + 2147483648) % 4294967296 - 2147483648

/-- The `x` is a value of the 32-bit type `int`. -/
def IsInt32 (x : Int) : Prop := -2147483648 ≤ x ∧ x < 2147483648

instance (x : Int) : Decidable (IsInt32 x) := by
  unfold IsInt32; infer_instance

/-- The decimal digits of `n` as ASCII codes, most significant first; `fuel`
bounds the number of digits produced. -/
def decimalFuel : Nat → Nat → List Nat
  | 0, _ => []
  | fuel + 1, n =>
    if n < 10 then [48 + n] else decimalFuel fuel (n / 10) ++ [48 + n % 10]

/-- The decimal representation of `n` as ASCII codes (`n + 1` digits of fuel
are always enough). -/
def decimal (n : Nat) : List Nat := decimalFuel (n + 1) n

/-- The characters the conversion `%d` prints for the `int` `x`: a minus sign
for a negative value, then the decimal digits of the magnitude. -/
def format_d (x : Int) : List Nat :=
  if x < 0 then 45 :: decimal x.natAbs else decimal x.natAbs

/-- The characters `vsprintf` stores (before the terminating NUL) for the
format `fmt`, given as the characters of the format string, and the `int`
arguments `args`.  Only the conversion `%d` (bytes 37, 100), the one the
source uses, is interpreted; every other character is copied. -/
def vsprintf : List Nat → List Int → List Nat
  | [], _ => []
  | 37 :: 100 :: fmt, x :: args => format_d x ++ vsprintf fmt args
  | c :: fmt, args => c :: vsprintf fmt args

/-- The vector `create_zx_basic_line(line_number, line_fmt, ...)` returns
(source lines 287-329); `none` when the formatted text with its NUL does not
fit `char line_string[1024]`. -/
def create_zx_basic_line (line_number : Int) (line_fmt : List Nat) (args : List Int) :
    Option (List Nat) :=
  -- char line_string[1024]; vsprintf(line_string, line_fmt, argptr);
  let text := vsprintf line_fmt args
  if text.length < 1024 then
    let line_string := text ++ [0]
    let line : List Nat := []
    -- line.push_back(line_number >> 8); line.push_back(line_number & 0xFF);
    let line := line ++ [toByte (line_number / 256)]
    let line := line ++ [toByte (line_number % 256)]
    -- line.push_back(0); line.push_back(0);
    let line := line ++ [0]
    let line := line ++ [0]
    -- int slen = strlen(line_string); for( int i=0; i<slen; i++ ) line.push_back(line_string[i]);
    let slen := strlen line_string
    let line := line ++ (List.range slen).map (fun i => line_string.getD i 0)
    -- line.push_back('\r');
    let line := line ++ [13]
    -- int line_length = slen+1; line[2] = line_length & 0xFF; line[3] = line_length >> 8;
    let line_length := slen + 1
    let line := line.set 2 (line_length % 256)
    let line := line.set 3 ((line_length / 256) % 256)
    some line
  else
    none

/-! ## ZX Basic tokens (source lines 36-50) -/

def CLEAR : List Nat := [0xFD]
def CLS : List Nat := [0xFB]
def LOAD : List Nat := [0xEF]
def CODE : List Nat := [0xAF]
def RANDOMIZE : List Nat := [0xF9]
def REM : List Nat := [0xEA]
def USR : List Nat := [0xC0]
def BORDER : List Nat := [0xE7]
def POKE : List Nat := [0xF4]
def PAPER : List Nat := [0xDA]
def INK : List Nat := [0xD9]
def VAL : List Nat := [0xB0]
/-- The macro `BLACK`: `VAL "\"0\""`. -/
def BLACK : List Nat := VAL ++ [0x22, 0x30, 0x22]
/-- The macro `WHITE`: `VAL "\"7\""`. -/
def WHITE : List Nat := VAL ++ [0x22, 0x37, 0x22]

def TAP_HDR_BASIC : Nat := 0
def TAP_HDR_CODE : Nat := 3

/-! ## Header builders -/

/-- The ten name bytes both header builders push:
`for( size_t i=0; i<10; i++ ) hdr.push_back( i < fname_len ? fname[i] : ' ' )`. -/
def hdr_name (fname : List Nat) : List Nat :=
  let fname_len := strlen fname
  (List.range 10).map (fun i => if i < fname_len then fname.getD i 0 else 32)

/-- The vector `hdr` that `tap_write_prg_header(fp, fname, data)` has built
when it calls the framer (source lines 365-402); `none` when `data[1]` or
`data[0]` is read out of bounds. -/
def prg_hdr (fname : List Nat) (data : List Nat) : Option (List Nat) := do
  -- hdr.push_back(TAP_HDR_BASIC);
  let hdr := [TAP_HDR_BASIC]
  let hdr := hdr ++ hdr_name fname
  -- int len_basic = data.size(); hdr.push_back(len_basic & 0xFF); hdr.push_back(len_basic >> 8);
  let len_basic := data.length
  let hdr := hdr ++ [len_basic % 256]
  let hdr := hdr ++ [(len_basic / 256) % 256]
  -- hdr.push_back(data[1]); hdr.push_back(data[0]);
  let d1 ← data[1]?
  let hdr := hdr ++ [d1]
  let d0 ← data[0]?
  let hdr := hdr ++ [d0]
  -- hdr.push_back(len_basic & 0xFF); hdr.push_back(len_basic >> 8);
  let hdr := hdr ++ [len_basic % 256]
  let hdr := hdr ++ [(len_basic / 256) % 256]
  pure hdr

/-- The bytes `tap_write_prg_header(fp, fname, data)` appends to `fp`
(source lines 364-406). -/
def tap_write_prg_header (fname : List Nat) (data : List Nat) : Option (List Nat) :=
  (prg_hdr fname data).map (tap_write_data_block_with_checksum 0)

/-- The vector `hdr` that `tap_write_code_header(fp, fname, data, start_address)`
has built when it calls the framer (source lines 414-445). -/
def code_hdr (fname : List Nat) (data : List Nat) (start_address : Int) : List Nat :=
  -- hdr.push_back(TAP_HDR_CODE);
  let hdr := [TAP_HDR_CODE]
  let hdr := hdr ++ hdr_name fname
  -- int len_data = data.size(); hdr.push_back(len_data & 0xFF); hdr.push_back(len_data >> 8);
  let len_data := data.length
  let hdr := hdr ++ [len_data % 256]
  let hdr := hdr ++ [(len_data / 256) % 256]
  -- hdr.push_back(start_address & 0xFF); hdr.push_back(start_address >> 8);
  let hdr := hdr ++ [toByte (start_address % 256)]
  let hdr := hdr ++ [toByte (start_address / 256)]
  -- hdr.push_back(0); hdr.push_back(0x80);
  let hdr := hdr ++ [0]
  let hdr := hdr ++ [0x80]
  hdr

/-- The bytes `tap_write_code_header(fp, fname, data, start_address)` appends
to `fp` (source lines 413-449). -/
def tap_write_code_header (fname : List Nat) (data : List Nat) (start_address : Int) :
    List Nat :=
  tap_write_data_block_with_checksum 0 (code_hdr fname data start_address)

/-! ## Bootstrap program builder -/

/-- The vector `basic_loader` that `tap_create_zx_basic_loader` has built when
it reaches the two write calls (source lines 229-271).  `screen_file_name` is
`none` for a null pointer. -/
def basic_loader_listing (start_address exec_address : Int)
    (screen_file_name : Option (List Nat)) : Option (List Nat) := do
  let mut basic_loader : List Nat := []
  let mut line_number : Int := 10
  -- CLEAR start_address-1
  let basic_line ← create_zx_basic_line line_number
    (CLEAR ++ VAL ++ [0x22, 37, 100, 0x22]) [wrap32 (start_address - 1)]
  basic_loader := basic_loader ++ basic_line
  line_number := line_number + 10
  -- BORDER black, INK white, PAPER black, CLS
  let basic_line ← create_zx_basic_line line_number
    (BORDER ++ BLACK ++ [0x3A] ++ PAPER ++ BLACK ++ [0x3A] ++ INK ++ WHITE ++ [0x3A] ++ CLS) []
  basic_loader := basic_loader ++ basic_line
  line_number := line_number + 10
  -- POKE 23739,111
  let basic_line ← create_zx_basic_line line_number
    (POKE ++ VAL ++ [0x22, 0x32, 0x33, 0x37, 0x33, 0x39, 0x22, 0x2C] ++ VAL
      ++ [0x22, 0x31, 0x31, 0x31, 0x22]) []
  basic_loader := basic_loader ++ basic_line
  line_number := line_number + 10
  -- if( screen_file_name ) { ... LOAD "\"\"" CODE ... }
  if screen_file_name.isSome then
    let basic_line ← create_zx_basic_line line_number (LOAD ++ [0x22, 0x22] ++ CODE) []
    basic_loader := basic_loader ++ basic_line
    line_number := line_number + 10
  -- LOAD "" CODE
  let basic_line ← create_zx_basic_line line_number (LOAD ++ [0x22, 0x22] ++ CODE) []
  basic_loader := basic_loader ++ basic_line
  line_number := line_number + 10
  -- POKE 23739,244
  let basic_line ← create_zx_basic_line line_number
    (POKE ++ VAL ++ [0x22, 0x32, 0x33, 0x37, 0x33, 0x39, 0x22, 0x2C] ++ VAL
      ++ [0x22, 0x32, 0x34, 0x34, 0x22]) []
  basic_loader := basic_loader ++ basic_line
  line_number := line_number + 10
  -- RANDOMIZE USR EXEC_ADDR
  let basic_line ← create_zx_basic_line line_number
    (RANDOMIZE ++ USR ++ VAL ++ [0x22, 37, 100, 0x22]) [exec_address]
  basic_loader := basic_loader ++ basic_line
  pure basic_loader

/-- The bytes `tap_create_zx_basic_loader(fp, name, start_address,
exec_address, screen_file_name)` appends to `fp` (source lines 228-279). -/
def tap_create_zx_basic_loader (name : List Nat) (start_address exec_address : Int)
    (screen_file_name : Option (List Nat)) : Option (List Nat) := do
  let basic_loader ← basic_loader_listing start_address exec_address screen_file_name
  -- tap_write_prg_header(fp, name, basic_loader);
  let out ← tap_write_prg_header name basic_loader
  -- tap_write_data_block_with_checksum( fp, (byte)-1, basic_loader );
  pure (out ++ tap_write_data_block_with_checksum 0xFF basic_loader)

/-! ## Reading a frame back -/

/-- The value of a 16-bit little-endian field with low byte `lo` and high
byte `hi`. -/
def le16 (lo hi : Nat) : Nat := lo + 256 * hi

/-- The length field a reader decodes from the first two bytes of a frame. -/
def length_field (frame : List Nat) : Nat := le16 (frame.getD 0 0) (frame.getD 1 0)

/-- The encoding of one BASIC line in closed form: line number `n` big-endian,
the length of text plus terminator little-endian, the text `t`, and the
terminator `0x0D`. -/
def encoded_line (n : Nat) (t : List Nat) : List Nat :=
  [n / 256, n % 256, (t.length + 1) % 256, (t.length + 1) / 256] ++ t ++ [13]

/-! ## Container writer -/

/-- The bytes `tap_create_code(fp, file_name, start_address)` appends to `fp`
(source lines 337-357).  `fs` gives the contents of the file of a given name
and `none` for a file that cannot be opened; `file_name` is `none` for a null
pointer.  The result is `none` when the process exits at the failed open. -/
def tap_create_code (fs : List Nat → Option (List Nat)) (file_name : Option (List Nat))
    (start_address : Int) : Option (List Nat) :=
  match file_name with
  -- if( ! file_name ) return;
  | none => some []
  | some fname =>
    -- ifstream in_file(file_name, ios::binary); if( in_file.fail() ) exit(EXIT_FAILURE);
    match fs fname with
    | none => none
    | some data =>
      -- tap_write_code_header(fp, "code", data, start_address);
      -- tap_write_data_block_with_checksum(fp, (byte)-1, data);
      some (tap_write_code_header [0x63, 0x6F, 0x64, 0x65] data start_address
        ++ tap_write_data_block_with_checksum 0xFF data)

/-- The bytes the processing step of `main` (source lines 188-196) writes to
the output file; `none` when one of the three calls has no result. -/
def main_process (fs : List Nat → Option (List Nat)) (prg_name : List Nat)
    (start_address exec_address : Int) (screen_file_name code_file_name : Option (List Nat)) :
    Option (List Nat) := do
  -- tap_create_zx_basic_loader( fp_out, prg_name, start_address, exec_address, screen_file_name );
  let mut out ← tap_create_zx_basic_loader prg_name start_address exec_address screen_file_name
  -- if( screen_file_name ) tap_create_code( fp_out, screen_file_name, 16384 );
  if screen_file_name.isSome then
    let screen ← tap_create_code fs screen_file_name 16384
    out := out ++ screen
  -- tap_create_code( fp_out, code_file_name, start_address );
  let code ← tap_create_code fs code_file_name start_address
  pure (out ++ code)

/-! ## Reading a listing back -/

/-- The concatenation of the encodings of numbered line texts. -/
def all_lines : List (Nat × List Nat) → List Nat
  | [] => []
  | p :: ls => encoded_line p.1 p.2 ++ all_lines ls

/-- A reader of a listing: while bytes remain, read a 2-byte big-endian line
number and a 2-byte little-endian length `n`, then take the next `n` bytes as
the body of the line.  The result lists, for every line, its number, its
length field and its body; it is `none` when the bytes do not split into
whole lines.  Each step uses one unit of `fuel`. -/
def read_lines : Nat → List Nat → Option (List (Nat × Nat × List Nat))
  | _, [] => some []
  | fuel + 1, hi :: lo :: l0 :: l1 :: rest =>
    let n := le16 l0 l1
    if n ≤ rest.length then
      (read_lines fuel (rest.drop n)).map (fun ls => (256 * hi + lo, n, rest.take n) :: ls)
    else
      none
  | _, _ => none

/-- The reader run on a whole listing; a listing never has more lines than
bytes. -/
def parse_listing (listing : List Nat) : Option (List (Nat × Nat × List Nat)) :=
  read_lines listing.length listing

/-- The numbered line texts of the bootstrap listing in closed form: six
lines numbered 10 to 60 without a screen, seven numbered 10 to 70 with one.
The first text prints the `int` value of `start_address - 1`. -/
def loader_lines (start_address exec_address : Int) (screen : Bool) :
    List (Nat × List Nat) :=
  [(10, [0xFD, 0xB0, 0x22] ++ format_d (wrap32 (start_address - 1)) ++ [0x22]),
   (20, [0xE7, 0xB0, 0x22, 0x30, 0x22, 0x3A, 0xDA, 0xB0, 0x22, 0x30, 0x22, 0x3A, 0xD9,
      0xB0, 0x22, 0x37, 0x22, 0x3A, 0xFB]),
   (30, [0xF4, 0xB0, 0x22, 0x32, 0x33, 0x37, 0x33, 0x39, 0x22, 0x2C, 0xB0, 0x22, 0x31,
      0x31, 0x31, 0x22])]
  ++ (if screen then
      [(40, [0xEF, 0x22, 0x22, 0xAF]),
       (50, [0xEF, 0x22, 0x22, 0xAF]),
       (60, [0xF4, 0xB0, 0x22, 0x32, 0x33, 0x37, 0x33, 0x39, 0x22, 0x2C, 0xB0, 0x22, 0x32,
          0x34, 0x34, 0x22]),
       (70, [0xF9, 0xC0, 0xB0, 0x22] ++ format_d exec_address ++ [0x22])]
    else
      [(40, [0xEF, 0x22, 0x22, 0xAF]),
       (50, [0xF4, 0xB0, 0x22, 0x32, 0x33, 0x37, 0x33, 0x39, 0x22, 0x2C, 0xB0, 0x22, 0x32,
          0x34, 0x34, 0x22]),
       (60, [0xF9, 0xC0, 0xB0, 0x22] ++ format_d exec_address ++ [0x22])])

/-- What the reader returns for a numbered line text: the number, the length
of text plus terminator, and the text followed by the terminator. -/
def as_read (p : Nat × List Nat) : Nat × Nat × List Nat :=
  (p.1, p.2.length + 1, p.2 ++ [13])

/-- The calls `create_zx_basic_line(line_number, line_fmt, ...)` that
`tap_create_zx_basic_loader` makes, in order (source lines 235-270): line
number, format and arguments of each. -/
def basic_loader_calls (start_address exec_address : Int)
    (screen_file_name : Option (List Nat)) : List (Int × List Nat × List Int) :=
  [(10, CLEAR ++ VAL ++ [0x22, 37, 100, 0x22], [wrap32 (start_address - 1)]),
   (20, BORDER ++ BLACK ++ [0x3A] ++ PAPER ++ BLACK ++ [0x3A] ++ INK ++ WHITE ++ [0x3A] ++ CLS,
      []),
   (30, POKE ++ VAL ++ [0x22, 0x32, 0x33, 0x37, 0x33, 0x39, 0x22, 0x2C] ++ VAL
      ++ [0x22, 0x31, 0x31, 0x31, 0x22], [])]
  ++ (if screen_file_name.isSome then
      [(40, LOAD ++ [0x22, 0x22] ++ CODE, []),
       (50, LOAD ++ [0x22, 0x22] ++ CODE, []),
       (60, POKE ++ VAL ++ [0x22, 0x32, 0x33, 0x37, 0x33, 0x39, 0x22, 0x2C] ++ VAL
          ++ [0x22, 0x32, 0x34, 0x34, 0x22], []),
       (70, RANDOMIZE ++ USR ++ VAL ++ [0x22, 37, 100, 0x22], [exec_address])]
    else
      [(40, LOAD ++ [0x22, 0x22] ++ CODE, []),
       (50, POKE ++ VAL ++ [0x22, 0x32, 0x33, 0x37, 0x33, 0x39, 0x22, 0x2C] ++ VAL
          ++ [0x22, 0x32, 0x34, 0x34, 0x22], []),
       (60, RANDOMIZE ++ USR ++ VAL ++ [0x22, 37, 100, 0x22], [exec_address])])

/-- The listing obtained by making a list of calls in order and appending the
returned lines. -/
def run_calls : List (Int × List Nat × List Int) → Option (List Nat)
  | [] => some []
  | c :: cs => do
    let basic_line ← create_zx_basic_line c.1 c.2.1 c.2.2
    let more ← run_calls cs
    pure (basic_line ++ more)

/-- The number a string of ASCII decimal digits denotes. -/
def digits_value (ds : List Nat) : Nat := ds.foldl (fun acc c => 10 * acc + (c - 48)) 0

/-! # Theorems -/

/-! ### Lemmas on the framer -/

theorem foldl_checksum_step (data : List Nat) (out : List Nat) (c : Nat) :
    data.foldl checksum_step (out, c) = (out ++ data.map fputc, xorFold c data) := by
  induction data generalizing out c with
  | nil => simp [xorFold]
  | cons b bs ih =>
    simp [List.foldl_cons, checksum_step, ih, xorFold]

/-- Closed form of the frame. -/
theorem frame_eq (flags : Nat) (data : List Nat) :
    tap_write_data_block_with_checksum flags data =
      fwrite_int16 (data.length + 2) ++ [fputc flags] ++ data.map fputc
        ++ [fputc (xorFold flags data)] := by
  simp [tap_write_data_block_with_checksum, foldl_checksum_step]

theorem map_fputc_of_isBytes {l : List Nat} (h : IsBytes l) : l.map fputc = l := by
  induction l with
  | nil => rfl
  | cons b bs ih =>
    have hb : b < 256 := h b (List.mem_cons_self _ _)
    have hbs : IsBytes bs := fun x hx => h x (List.mem_cons_of_mem _ hx)
    simp [fputc, Nat.mod_eq_of_lt hb, ih hbs]

theorem xorFold_lt (init : Nat) (l : List Nat) (hi : init < 256) (h : IsBytes l) :
    xorFold init l < 256 := by
  induction l generalizing init with
  | nil => simpa [xorFold] using hi
  | cons b bs ih =>
    have hb : b < 256 := h b (List.mem_cons_self _ _)
    have hbs : IsBytes bs := fun x hx => h x (List.mem_cons_of_mem _ hx)
    have hx : init ^^^ b < 2 ^ 8 := Nat.xor_lt_two_pow (by simpa using hi) (by simpa using hb)
    simpa [xorFold] using ih (init ^^^ b) (by simpa using hx) hbs

theorem xorFold_append (init : Nat) (l₁ l₂ : List Nat) :
    xorFold init (l₁ ++ l₂) = xorFold (xorFold init l₁) l₂ := by
  simp [xorFold]

theorem xorFold_cons (init b : Nat) (l : List Nat) :
    xorFold init (b :: l) = xorFold (init ^^^ b) l := by
  simp [xorFold]

theorem xorFold_snoc_self (init : Nat) (l : List Nat) :
    xorFold init (l ++ [xorFold init l]) = 0 := by
  simp [xorFold_append, xorFold_cons, xorFold]

theorem fwrite_int16_length (n : Nat) : (fwrite_int16 n).length = 2 := by
  simp [fwrite_int16]

/-- Closed form of the frame of a well-typed flag and payload. -/
theorem frame_eq_of_isBytes (flags : Nat) (data : List Nat) (hf : flags < 256)
    (hd : IsBytes data) :
    tap_write_data_block_with_checksum flags data =
      fwrite_int16 (data.length + 2) ++ flags :: (data ++ [xorFold flags data]) := by
  rw [frame_eq, map_fputc_of_isBytes hd]
  have hx : xorFold flags data < 256 := xorFold_lt flags data hf hd
  simp [fputc, Nat.mod_eq_of_lt hf, Nat.mod_eq_of_lt hx]

/-! ## The block framer: C1, C2, C3 -/

/-- C1: for every flag byte and every payload of bytes, the last byte of the
frame written by `tap_write_data_block_with_checksum` is the flag XOR-ed with
every payload byte (the flag alone for an empty payload), and XOR-ing
everything a reader finds after the two length bytes (flag, payload and
checksum) gives 0. -/
theorem frame_checksum_is_xor_fold (flags : Nat) (data : List Nat) (hf : flags < 256)
    (hd : IsBytes data) :
    (tap_write_data_block_with_checksum flags data).getLast? = some (xorFold flags data) ∧
      tap_write_data_block_with_checksum flags [] = [2, 0, flags, flags] ∧
      xorFold 0 ((tap_write_data_block_with_checksum flags data).drop 2) = 0 := by
  refine ⟨?_, ?_, ?_⟩
  · rw [frame_eq_of_isBytes flags data hf hd]
    rw [show fwrite_int16 (data.length + 2) ++ flags :: (data ++ [xorFold flags data])
        = (fwrite_int16 (data.length + 2) ++ flags :: data) ++ [xorFold flags data] by simp]
    exact List.getLast?_concat _
  · rw [frame_eq_of_isBytes flags [] hf (by intro b hb; simp at hb)]
    simp [fwrite_int16, xorFold]
  · rw [frame_eq_of_isBytes flags data hf hd]
    rw [List.drop_append_of_le_length (by simp [fwrite_int16_length])]
    have h2 : List.drop 2 (fwrite_int16 (data.length + 2)) = [] := by simp [fwrite_int16]
    rw [h2, List.nil_append, xorFold_cons, Nat.zero_xor]
    exact xorFold_snoc_self flags data

/-- Witness of C1 on the code payload of the HELLO scenario. -/
theorem frame_checksum_is_xor_fold_witness :
    (tap_write_data_block_with_checksum 0xFF [0x3E, 0x05, 0xC9]).getLast?
        = some (xorFold 0xFF [0x3E, 0x05, 0xC9]) ∧
      tap_write_data_block_with_checksum 0xFF [] = [2, 0, 0xFF, 0xFF] ∧
      xorFold 0 ((tap_write_data_block_with_checksum 0xFF [0x3E, 0x05, 0xC9]).drop 2) = 0 :=
  frame_checksum_is_xor_fold 0xFF [0x3E, 0x05, 0xC9] (by decide) (by decide)

theorem length_field_frame (flags : Nat) (data : List Nat) :
    length_field (tap_write_data_block_with_checksum flags data)
      = (data.length + 2) % 65536 := by
  rw [frame_eq]
  simp only [length_field, le16, fwrite_int16, List.cons_append, List.nil_append,
    List.getD_cons_zero, List.getD_cons_succ]
  omega

/-- C2, as stated, fails: the 3-byte code payload of the HELLO scenario is
framed with length field 5, not 3 + 1 = 4. -/
theorem frame_length_field_not_succ :
    ¬ (length_field (tap_write_data_block_with_checksum 0xFF [0x3E, 0x05, 0xC9])
        = [0x3E, 0x05, 0xC9].length + 1) := by
  decide

/-- C2, amended: for every flag and every payload of length `L ≤ 65533`, the
two-byte little-endian length field at the start of the frame written by
`tap_write_data_block_with_checksum` equals `L + 2`; a 17-byte header payload
is framed with length field 19 and the 3-byte code payload of the HELLO
scenario with length field 5. -/
theorem frame_length_field_eq (flags : Nat) (data : List Nat) (hL : data.length ≤ 65533) :
    length_field (tap_write_data_block_with_checksum flags data) = data.length + 2 ∧
      (data.length = 17 →
        (tap_write_data_block_with_checksum flags data).take 2 = [19, 0]) ∧
      length_field (tap_write_data_block_with_checksum 0xFF [0x3E, 0x05, 0xC9]) = 5 := by
  refine ⟨?_, ?_, by decide⟩
  · rw [length_field_frame]
    exact Nat.mod_eq_of_lt (by omega)
  · intro h17
    rw [frame_eq, h17]
    simp [fwrite_int16]

/-- Witness of the amended C2 on a 17-byte header payload. -/
theorem frame_length_field_eq_witness :
    length_field (tap_write_data_block_with_checksum 0
        [3, 99, 111, 100, 101, 32, 32, 32, 32, 32, 32, 3, 0, 0, 128, 0, 128])
      = [3, 99, 111, 100, 101, 32, 32, 32, 32, 32, 32, 3, 0, 0, 128, 0, 128].length + 2 ∧
      ([3, 99, 111, 100, 101, 32, 32, 32, 32, 32, 32, 3, 0, 0, 128, 0, 128].length = 17 →
        (tap_write_data_block_with_checksum 0
          [3, 99, 111, 100, 101, 32, 32, 32, 32, 32, 32, 3, 0, 0, 128, 0, 128]).take 2
          = [19, 0]) ∧
      length_field (tap_write_data_block_with_checksum 0xFF [0x3E, 0x05, 0xC9]) = 5 :=
  frame_length_field_eq 0 [3, 99, 111, 100, 101, 32, 32, 32, 32, 32, 32, 3, 0, 0, 128, 0, 128]
    (by decide)

/-- C3: for every flag byte and every payload of `L` bytes,
`tap_write_data_block_with_checksum` appends exactly `L + 4` bytes: the two
length bytes, the flag at offset 2, the payload bytes unchanged and in order
at offsets `3 .. L + 2`, and one checksum byte at offset `L + 3`, after which
nothing follows. -/
theorem frame_layout (flags : Nat) (data : List Nat) (hf : flags < 256)
    (hd : IsBytes data) :
    (tap_write_data_block_with_checksum flags data).length = data.length + 4 ∧
      (tap_write_data_block_with_checksum flags data).take 2
        = fwrite_int16 (data.length + 2) ∧
      (tap_write_data_block_with_checksum flags data)[2]? = some flags ∧
      ((tap_write_data_block_with_checksum flags data).drop 3).take data.length = data ∧
      (tap_write_data_block_with_checksum flags data).drop (data.length + 3)
        = [xorFold flags data] := by
  rw [frame_eq_of_isBytes flags data hf hd]
  refine ⟨?_, ?_, ?_, ?_, ?_⟩
  · simp [fwrite_int16]
  · simp [fwrite_int16]
  · simp [fwrite_int16]
  · simp [fwrite_int16]
  · simp only [fwrite_int16, List.cons_append, List.nil_append]
    rw [show data.length + 3 = (data.length + 2) + 1 from rfl, List.drop_succ_cons,
      show data.length + 2 = (data.length + 1) + 1 from rfl, List.drop_succ_cons,
      List.drop_succ_cons]
    simp

/-- Witness of C3 on the code payload of the HELLO scenario. -/
theorem frame_layout_witness :
    (tap_write_data_block_with_checksum 0xFF [0x3E, 0x05, 0xC9]).length
        = [0x3E, 0x05, 0xC9].length + 4 ∧
      (tap_write_data_block_with_checksum 0xFF [0x3E, 0x05, 0xC9]).take 2
        = fwrite_int16 ([0x3E, 0x05, 0xC9].length + 2) ∧
      (tap_write_data_block_with_checksum 0xFF [0x3E, 0x05, 0xC9])[2]? = some 0xFF ∧
      ((tap_write_data_block_with_checksum 0xFF [0x3E, 0x05, 0xC9]).drop 3).take
        [0x3E, 0x05, 0xC9].length = [0x3E, 0x05, 0xC9] ∧
      (tap_write_data_block_with_checksum 0xFF [0x3E, 0x05, 0xC9]).drop
        ([0x3E, 0x05, 0xC9].length + 3) = [xorFold 0xFF [0x3E, 0x05, 0xC9]] :=
  frame_layout 0xFF [0x3E, 0x05, 0xC9] (by decide) (by decide)

/-! ## The line encoder: C4 -/

theorem strlen_append_nul (t rest : List Nat) (ht : ∀ b ∈ t, b ≠ 0) :
    strlen (t ++ 0 :: rest) = t.length := by
  induction t with
  | nil => simp [strlen]
  | cons b bs ih =>
    have hb : b ≠ 0 := ht b (List.mem_cons_self _ _)
    have hbs : ∀ x ∈ bs, x ≠ 0 := fun x hx => ht x (List.mem_cons_of_mem _ hx)
    have := ih hbs
    simp only [strlen] at this ⊢
    simp only [List.cons_append, List.takeWhile_cons, ne_eq, hb, not_false_eq_true,
      decide_True, if_true, List.length_cons]
    simpa using this

theorem range_map_getD_append (t rest : List Nat) :
    (List.range t.length).map (fun i => (t ++ rest).getD i 0) = t := by
  apply List.ext_getElem
  · simp
  · intro i h₁ h₂
    simp only [List.length_map, List.length_range] at h₁
    simp [List.getD_eq_getElem?_getD, List.getElem?_append_left h₁, List.getElem?_eq_getElem h₁]

/-- Closed form of the line encoder in terms of the formatted text. -/
theorem create_zx_basic_line_eq (line_number : Int) (line_fmt : List Nat) (args : List Int)
    (hnul : ∀ b ∈ vsprintf line_fmt args, b ≠ 0)
    (hlen : (vsprintf line_fmt args).length < 1024) :
    create_zx_basic_line line_number line_fmt args =
      some ([toByte (line_number / 256), toByte (line_number % 256),
          ((vsprintf line_fmt args).length + 1) % 256,
          ((vsprintf line_fmt args).length + 1) / 256]
        ++ vsprintf line_fmt args ++ [13]) := by
  have h256 : ((vsprintf line_fmt args).length + 1) / 256 % 256
      = ((vsprintf line_fmt args).length + 1) / 256 := by omega
  simp only [create_zx_basic_line, if_pos hlen, strlen_append_nul _ [] hnul,
    range_map_getD_append, h256]
  simp

/-- C4: for every line number `n` with `0 ≤ n < 65536` and every formatted
text `t` that is NUL-free and shorter than 1024 bytes, `create_zx_basic_line`
returns exactly the `s + 5` bytes `[n >> 8, n & 0xFF, (s+1) & 0xFF, (s+1) >> 8]
++ t ++ [0x0D]`, where `s` is the length of `t`: the line number is
big-endian, the length field is little-endian, decodes to `s + 1` and does
not depend on `n`. -/
theorem create_zx_basic_line_layout (n : Int) (t : List Nat) (line_fmt : List Nat)
    (args : List Int) (hn₀ : 0 ≤ n) (hn : n < 65536) (ht : vsprintf line_fmt args = t)
    (hnul : ∀ b ∈ t, b ≠ 0) (hlen : t.length < 1024) :
    create_zx_basic_line n line_fmt args =
        some ([(n / 256).toNat, (n % 256).toNat, (t.length + 1) % 256, (t.length + 1) / 256]
          ++ t ++ [13]) ∧
      ([(n / 256).toNat, (n % 256).toNat, (t.length + 1) % 256, (t.length + 1) / 256]
          ++ t ++ [13]).length = t.length + 5 ∧
      le16 ((t.length + 1) % 256) ((t.length + 1) / 256) = t.length + 1 := by
  subst ht
  refine ⟨?_, by simp, by simp only [le16]; omega⟩
  rw [create_zx_basic_line_eq n line_fmt args hnul hlen]
  have h₁ : toByte (n / 256) = (n / 256).toNat := by
    simp only [toByte]
    congr 1
    omega
  have h₂ : toByte (n % 256) = (n % 256).toNat := by
    simp only [toByte]
    congr 1
    omega
  rw [h₁, h₂]

/-- Witness of C4: line 10 with the text `CLEAR VAL"32767"`. -/
theorem create_zx_basic_line_layout_witness :
    create_zx_basic_line 10 [0xFD, 0xB0, 0x22, 37, 100, 0x22] [32767] =
        some ([((10 : Int) / 256).toNat, ((10 : Int) % 256).toNat,
            ([0xFD, 0xB0, 0x22, 0x33, 0x32, 0x37, 0x36, 0x37, 0x22].length + 1) % 256,
            ([0xFD, 0xB0, 0x22, 0x33, 0x32, 0x37, 0x36, 0x37, 0x22].length + 1) / 256]
          ++ [0xFD, 0xB0, 0x22, 0x33, 0x32, 0x37, 0x36, 0x37, 0x22] ++ [13]) ∧
      ([((10 : Int) / 256).toNat, ((10 : Int) % 256).toNat,
            ([0xFD, 0xB0, 0x22, 0x33, 0x32, 0x37, 0x36, 0x37, 0x22].length + 1) % 256,
            ([0xFD, 0xB0, 0x22, 0x33, 0x32, 0x37, 0x36, 0x37, 0x22].length + 1) / 256]
          ++ [0xFD, 0xB0, 0x22, 0x33, 0x32, 0x37, 0x36, 0x37, 0x22] ++ [13]).length
        = [0xFD, 0xB0, 0x22, 0x33, 0x32, 0x37, 0x36, 0x37, 0x22].length + 5 ∧
      le16 (([0xFD, 0xB0, 0x22, 0x33, 0x32, 0x37, 0x36, 0x37, 0x22].length + 1) % 256)
          (([0xFD, 0xB0, 0x22, 0x33, 0x32, 0x37, 0x36, 0x37, 0x22].length + 1) / 256)
        = [0xFD, 0xB0, 0x22, 0x33, 0x32, 0x37, 0x36, 0x37, 0x22].length + 1 :=
  create_zx_basic_line_layout 10 [0xFD, 0xB0, 0x22, 0x33, 0x32, 0x37, 0x36, 0x37, 0x22]
    [0xFD, 0xB0, 0x22, 37, 100, 0x22] [32767] (by decide) (by decide) (by decide)
    (by decide) (by decide)

/-! ## The header builders: C5 - C9 -/

theorem strlen_le (s : List Nat) : strlen s ≤ s.length := by
  simp only [strlen]
  exact (List.takeWhile_prefix _).length_le

theorem strlen_eq_length (s : List Nat) (h : ∀ b ∈ s, b ≠ 0) : strlen s = s.length := by
  induction s with
  | nil => simp [strlen]
  | cons b bs ih =>
    have hb : b ≠ 0 := h b (List.mem_cons_self _ _)
    have hbs : ∀ x ∈ bs, x ≠ 0 := fun x hx => h x (List.mem_cons_of_mem _ hx)
    have := ih hbs
    simp only [strlen] at this ⊢
    simp only [List.takeWhile_cons, ne_eq, hb, not_false_eq_true, decide_True, if_true,
      List.length_cons]
    simpa using this

/-- The padded or truncated name: the name field of both headers in closed
form, for a name whose C length is `k`. -/
theorem hdr_name_eq (fname : List Nat) :
    hdr_name fname = fname.take (min (strlen fname) 10)
      ++ List.replicate (10 - min (strlen fname) 10) 32 := by
  have hk := strlen_le fname
  apply List.ext_getElem
  · simp only [hdr_name, List.length_map, List.length_range, List.length_append,
      List.length_take, List.length_replicate]
    omega
  · intro i h₁ h₂
    simp only [hdr_name, List.length_map, List.length_range] at h₁
    simp only [hdr_name, List.getElem_map, List.getElem_range]
    by_cases hi : i < strlen fname
    · have hil : i < fname.length := by omega
      rw [if_pos hi, List.getElem_append_left (by simp; omega)]
      simp [List.getD_eq_getElem?_getD, List.getElem?_eq_getElem hil]
    · rw [if_neg hi, List.getElem_append_right (by simp; omega)]
      simp

theorem hdr_name_length (fname : List Nat) : (hdr_name fname).length = 10 := by
  simp [hdr_name]

/-- Closed form of the program header for a listing of at least two bytes. -/
theorem prg_hdr_cons (fname : List Nat) (d0 d1 : Nat) (rest : List Nat) :
    prg_hdr fname (d0 :: d1 :: rest) =
      some (TAP_HDR_BASIC :: (hdr_name fname ++
        [(rest.length + 2) % 256, (rest.length + 2) / 256 % 256, d1, d0,
          (rest.length + 2) % 256, (rest.length + 2) / 256 % 256])) := by
  simp [prg_hdr]

theorem exists_cons_cons_of_two_le (data : List Nat) (h : 2 ≤ data.length) :
    ∃ d0 d1 rest, data = d0 :: d1 :: rest := by
  match data, h with
  | d0 :: d1 :: rest, _ => exact ⟨d0, d1, rest, rfl⟩

/-- Closed form of the code header. -/
theorem code_hdr_eq (fname : List Nat) (data : List Nat) (start_address : Int) :
    code_hdr fname data start_address =
      TAP_HDR_CODE :: (hdr_name fname ++
        [data.length % 256, data.length / 256 % 256, toByte (start_address % 256),
          toByte (start_address / 256), 0, 0x80]) := by
  simp [code_hdr]

/-- C5: for every name of any length, every listing of at least two bytes,
every code payload and every load address, the header record that
`tap_write_prg_header` passes to the framer and the one that
`tap_write_code_header` passes to the framer are exactly 17 bytes long. -/
theorem header_record_length (fname : List Nat) (listing code : List Nat)
    (start_address : Int) (h2 : 2 ≤ listing.length) :
    (∃ hdr, prg_hdr fname listing = some hdr ∧
        tap_write_prg_header fname listing
          = some (tap_write_data_block_with_checksum 0 hdr) ∧
        hdr.length = 17) ∧
      tap_write_code_header fname code start_address
        = tap_write_data_block_with_checksum 0 (code_hdr fname code start_address) ∧
      (code_hdr fname code start_address).length = 17 := by
  obtain ⟨d0, d1, rest, rfl⟩ := exists_cons_cons_of_two_le listing h2
  refine ⟨⟨_, prg_hdr_cons fname d0 d1 rest, ?_, ?_⟩, rfl, ?_⟩
  · simp [tap_write_prg_header, prg_hdr_cons]
  · simp [hdr_name_length]
  · simp [code_hdr_eq, hdr_name_length]

/-- Witness of C5: the empty name with a two-byte listing and a three-byte
code payload. -/
theorem header_record_length_witness :
    (∃ hdr, prg_hdr [] [0, 10] = some hdr ∧
        tap_write_prg_header [] [0, 10]
          = some (tap_write_data_block_with_checksum 0 hdr) ∧
        hdr.length = 17) ∧
      tap_write_code_header [] [0x3E, 0x05, 0xC9] 32768
        = tap_write_data_block_with_checksum 0 (code_hdr [] [0x3E, 0x05, 0xC9] 32768) ∧
      (code_hdr [] [0x3E, 0x05, 0xC9] 32768).length = 17 :=
  header_record_length [] [0, 10] [0x3E, 0x05, 0xC9] 32768 (by decide)

theorem drop_one_take_ten_hdr (ty : Nat) (fname tail : List Nat) :
    ((ty :: (hdr_name fname ++ tail)).drop 1).take 10 = hdr_name fname := by
  rw [List.drop_succ_cons, List.drop_zero, List.take_append_of_le_length
    (by rw [hdr_name_length]), List.take_of_length_le (by rw [hdr_name_length])]

/-- C6: for every name of length `k`, bytes 1..10 of the header record built
by `tap_write_prg_header`, and likewise by `tap_write_code_header`, are the
first `min k 10` bytes of the name followed by `10 - min k 10` spaces; a
15-character name yields its first 10 characters with no padding, a
3-character name its 3 characters and 7 spaces, and a record is built
whatever the length of the name. -/
theorem header_name_field (fname : List Nat) (listing code : List Nat)
    (start_address : Int) (hnul : ∀ b ∈ fname, b ≠ 0) (h2 : 2 ≤ listing.length) :
    (∃ hdr, prg_hdr fname listing = some hdr ∧
        (hdr.drop 1).take 10 = fname.take (min fname.length 10)
          ++ List.replicate (10 - min fname.length 10) 32) ∧
      ((code_hdr fname code start_address).drop 1).take 10
        = fname.take (min fname.length 10)
          ++ List.replicate (10 - min fname.length 10) 32 ∧
      (fname.length = 15 →
        ((code_hdr fname code start_address).drop 1).take 10 = fname.take 10) ∧
      (fname.length = 3 →
        ((code_hdr fname code start_address).drop 1).take 10
          = fname ++ [32, 32, 32, 32, 32, 32, 32]) := by
  obtain ⟨d0, d1, rest, rfl⟩ := exists_cons_cons_of_two_le listing h2
  have hk : strlen fname = fname.length := strlen_eq_length fname hnul
  have hname := hdr_name_eq fname
  rw [hk] at hname
  have hcode : ((code_hdr fname code start_address).drop 1).take 10
      = fname.take (min fname.length 10)
        ++ List.replicate (10 - min fname.length 10) 32 := by
    rw [code_hdr_eq, drop_one_take_ten_hdr, hname]
  refine ⟨⟨_, prg_hdr_cons fname d0 d1 rest, ?_⟩, hcode, ?_, ?_⟩
  · rw [drop_one_take_ten_hdr, hname]
  · intro h15
    rw [hcode, h15]
    simp
  · intro h3
    rw [hcode, h3]
    have : List.take 3 fname = fname := List.take_of_length_le (by omega)
    simp [this, List.replicate]

/-- Witness of C6: the name `HELLO`. -/
theorem header_name_field_witness :
    (∃ hdr, prg_hdr [72, 69, 76, 76, 79] [0, 10] = some hdr ∧
        (hdr.drop 1).take 10
          = [72, 69, 76, 76, 79].take (min [72, 69, 76, 76, 79].length 10)
            ++ List.replicate (10 - min [72, 69, 76, 76, 79].length 10) 32) ∧
      ((code_hdr [72, 69, 76, 76, 79] [0x3E, 0x05, 0xC9] 32768).drop 1).take 10
        = [72, 69, 76, 76, 79].take (min [72, 69, 76, 76, 79].length 10)
          ++ List.replicate (10 - min [72, 69, 76, 76, 79].length 10) 32 ∧
      ([72, 69, 76, 76, 79].length = 15 →
        ((code_hdr [72, 69, 76, 76, 79] [0x3E, 0x05, 0xC9] 32768).drop 1).take 10
          = [72, 69, 76, 76, 79].take 10) ∧
      ([72, 69, 76, 76, 79].length = 3 →
        ((code_hdr [72, 69, 76, 76, 79] [0x3E, 0x05, 0xC9] 32768).drop 1).take 10
          = [72, 69, 76, 76, 79] ++ [32, 32, 32, 32, 32, 32, 32]) :=
  header_name_field [72, 69, 76, 76, 79] [0, 10] [0x3E, 0x05, 0xC9] 32768 (by decide)
    (by decide)

/-- C7: for every name, every payload of length `n < 65536` and every load
address `a` with `0 ≤ a < 65536`, the record built by `tap_write_code_header`
is the type byte 3, the ten bytes of the padded or truncated name, `n`
little-endian, `a` little-endian, and the bytes `0x00, 0x80` (the constant
`0x8000` little-endian); it depends on the payload only through its length. -/
theorem code_header_layout (fname : List Nat) (data : List Nat) (a : Int)
    (hn : data.length < 65536) (ha₀ : 0 ≤ a) (ha : a < 65536) :
    code_hdr fname data a =
        [3] ++ (fname.take (min (strlen fname) 10)
            ++ List.replicate (10 - min (strlen fname) 10) 32)
          ++ [data.length % 256, data.length / 256]
          ++ [(a % 256).toNat, (a / 256).toNat]
          ++ [0x00, 0x80] ∧
      le16 (data.length % 256) (data.length / 256) = data.length ∧
      (le16 (a % 256).toNat (a / 256).toNat : Int) = a ∧
      le16 0x00 0x80 = 0x8000 ∧
      (∀ data' : List Nat, data'.length = data.length →
        code_hdr fname data' a = code_hdr fname data a) := by
  have h₁ : toByte (a / 256) = (a / 256).toNat := by
    simp only [toByte]
    congr 1
    omega
  have h₂ : toByte (a % 256) = (a % 256).toNat := by
    simp only [toByte]
    congr 1
    omega
  have h₃ : data.length / 256 % 256 = data.length / 256 := by omega
  refine ⟨?_, ?_, ?_, by decide, ?_⟩
  · rw [code_hdr_eq, hdr_name_eq, h₁, h₂, h₃]
    simp [TAP_HDR_CODE]
  · simp only [le16]
    omega
  · simp only [le16]
    omega
  · intro data' h'
    rw [code_hdr_eq, code_hdr_eq, h']

/-- Witness of C7: the code header of the HELLO scenario. -/
theorem code_header_layout_witness :
    code_hdr [99, 111, 100, 101] [0x3E, 0x05, 0xC9] 32768 =
        [3] ++ ([99, 111, 100, 101].take (min (strlen [99, 111, 100, 101]) 10)
            ++ List.replicate (10 - min (strlen [99, 111, 100, 101]) 10) 32)
          ++ [[0x3E, 0x05, 0xC9].length % 256, [0x3E, 0x05, 0xC9].length / 256]
          ++ [((32768 : Int) % 256).toNat, ((32768 : Int) / 256).toNat]
          ++ [0x00, 0x80] ∧
      le16 ([0x3E, 0x05, 0xC9].length % 256) ([0x3E, 0x05, 0xC9].length / 256)
        = [0x3E, 0x05, 0xC9].length ∧
      (le16 ((32768 : Int) % 256).toNat ((32768 : Int) / 256).toNat : Int) = 32768 ∧
      le16 0x00 0x80 = 0x8000 ∧
      (∀ data' : List Nat, data'.length = [0x3E, 0x05, 0xC9].length →
        code_hdr [99, 111, 100, 101] data' 32768
          = code_hdr [99, 111, 100, 101] [0x3E, 0x05, 0xC9] 32768) :=
  code_header_layout [99, 111, 100, 101] [0x3E, 0x05, 0xC9] 32768 (by decide) (by decide)
    (by decide)

/-- C8, as stated, fails: for the name `HELLO` and the 7-byte listing
`[0, 10, 3, 0, 65, 66, 13]`, bytes 13..14 of the record are `10, 0` (the
autostart field), not the listing length, and bytes 15..16 are `7, 0` (the
listing length), not the autostart field. -/
theorem prg_header_params_not_len_len_autostart :
    ¬ (∃ hdr, prg_hdr [72, 69, 76, 76, 79] [0, 10, 3, 0, 65, 66, 13] = some hdr ∧
        (hdr.drop 13).take 2 = [7, 0] ∧ (hdr.drop 15).take 2 = [10, 0]) := by
  decide

/-- C8, amended: for every program name and every listing of at least 2 and
fewer than 65536 bytes, the 17-byte record built by `tap_write_prg_header` is
the type byte 0, the ten bytes of the padded or truncated name, the listing
length little-endian (bytes 11..12), the autostart field (bytes 13..14: the
listing's first two bytes in swapped order) and the listing length
little-endian again (bytes 15..16). -/
theorem prg_header_layout (fname : List Nat) (listing : List Nat)
    (h2 : 2 ≤ listing.length) (hn : listing.length < 65536) :
    ∃ d0 d1 hdr, listing[0]? = some d0 ∧ listing[1]? = some d1 ∧
      prg_hdr fname listing = some hdr ∧
      hdr = [0] ++ (fname.take (min (strlen fname) 10)
            ++ List.replicate (10 - min (strlen fname) 10) 32)
          ++ [listing.length % 256, listing.length / 256]
          ++ [d1, d0]
          ++ [listing.length % 256, listing.length / 256] ∧
      hdr.length = 17 := by
  obtain ⟨d0, d1, rest, rfl⟩ := exists_cons_cons_of_two_le listing h2
  have h₃ : (rest.length + 2) / 256 % 256 = (rest.length + 2) / 256 := by
    simp only [List.length_cons] at hn
    omega
  refine ⟨d0, d1, _, by simp, by simp, prg_hdr_cons fname d0 d1 rest, ?_, ?_⟩
  · rw [hdr_name_eq, h₃]
    simp [TAP_HDR_BASIC]
  · simp [hdr_name_length]

/-- Witness of the amended C8: the name `HELLO` and a 7-byte listing. -/
theorem prg_header_layout_witness :
    ∃ d0 d1 hdr, [0, 10, 3, 0, 65, 66, 13][0]? = some d0 ∧
      [0, 10, 3, 0, 65, 66, 13][1]? = some d1 ∧
      prg_hdr [72, 69, 76, 76, 79] [0, 10, 3, 0, 65, 66, 13] = some hdr ∧
      hdr = [0] ++ ([72, 69, 76, 76, 79].take (min (strlen [72, 69, 76, 76, 79]) 10)
            ++ List.replicate (10 - min (strlen [72, 69, 76, 76, 79]) 10) 32)
          ++ [[0, 10, 3, 0, 65, 66, 13].length % 256, [0, 10, 3, 0, 65, 66, 13].length / 256]
          ++ [d1, d0]
          ++ [[0, 10, 3, 0, 65, 66, 13].length % 256,
              [0, 10, 3, 0, 65, 66, 13].length / 256] ∧
      hdr.length = 17 :=
  prg_header_layout [72, 69, 76, 76, 79] [0, 10, 3, 0, 65, 66, 13] (by decide) (by decide)

/-- C9: for every program name and every listing of at least 2 and fewer
than 65536 bytes, the two 16-bit little-endian length fields that
`tap_write_prg_header` writes (bytes 11..12, length of basic and variables,
and bytes 15..16, basic program length) decode to the same value, the
listing's byte length. -/
theorem prg_header_length_fields (fname : List Nat) (listing : List Nat)
    (h2 : 2 ≤ listing.length) (hn : listing.length < 65536) :
    ∃ hdr, prg_hdr fname listing = some hdr ∧
      le16 (hdr.getD 11 0) (hdr.getD 12 0) = listing.length ∧
      le16 (hdr.getD 15 0) (hdr.getD 16 0) = listing.length ∧
      le16 (hdr.getD 11 0) (hdr.getD 12 0) = le16 (hdr.getD 15 0) (hdr.getD 16 0) := by
  obtain ⟨d0, d1, rest, rfl⟩ := exists_cons_cons_of_two_le listing h2
  simp only [List.length_cons] at hn
  refine ⟨_, prg_hdr_cons fname d0 d1 rest, ?_⟩
  have hlen := hdr_name_length fname
  have key : ∀ (l tail : List Nat) (i : Nat), l.length = 10 →
      (TAP_HDR_BASIC :: (l ++ tail)).getD (11 + i) 0 = tail.getD i 0 := by
    intro l tail i hl
    rw [show 11 + i = (10 + i) + 1 by omega, List.getD_cons_succ,
      List.getD_eq_getElem?_getD, List.getD_eq_getElem?_getD,
      List.getElem?_append_right (by omega)]
    congr 2
    omega
  have k0 : (TAP_HDR_BASIC :: (hdr_name fname ++ [(rest.length + 2) % 256,
      (rest.length + 2) / 256 % 256, d1, d0, (rest.length + 2) % 256,
      (rest.length + 2) / 256 % 256])).getD 11 0 = (rest.length + 2) % 256 :=
    key (hdr_name fname) _ 0 hlen
  have k1 : (TAP_HDR_BASIC :: (hdr_name fname ++ [(rest.length + 2) % 256,
      (rest.length + 2) / 256 % 256, d1, d0, (rest.length + 2) % 256,
      (rest.length + 2) / 256 % 256])).getD 12 0 = (rest.length + 2) / 256 % 256 :=
    key (hdr_name fname) _ 1 hlen
  have k4 : (TAP_HDR_BASIC :: (hdr_name fname ++ [(rest.length + 2) % 256,
      (rest.length + 2) / 256 % 256, d1, d0, (rest.length + 2) % 256,
      (rest.length + 2) / 256 % 256])).getD 15 0 = (rest.length + 2) % 256 :=
    key (hdr_name fname) _ 4 hlen
  have k5 : (TAP_HDR_BASIC :: (hdr_name fname ++ [(rest.length + 2) % 256,
      (rest.length + 2) / 256 % 256, d1, d0, (rest.length + 2) % 256,
      (rest.length + 2) / 256 % 256])).getD 16 0 = (rest.length + 2) / 256 % 256 :=
    key (hdr_name fname) _ 5 hlen
  rw [k0, k1, k4, k5]
  simp only [le16, List.length_cons]
  refine ⟨?_, ?_, trivial⟩ <;> omega

/-- Witness of C9: the name `HELLO` and a 7-byte listing. -/
theorem prg_header_length_fields_witness :
    ∃ hdr, prg_hdr [72, 69, 76, 76, 79] [0, 10, 3, 0, 65, 66, 13] = some hdr ∧
      le16 (hdr.getD 11 0) (hdr.getD 12 0) = [0, 10, 3, 0, 65, 66, 13].length ∧
      le16 (hdr.getD 15 0) (hdr.getD 16 0) = [0, 10, 3, 0, 65, 66, 13].length ∧
      le16 (hdr.getD 11 0) (hdr.getD 12 0) = le16 (hdr.getD 15 0) (hdr.getD 16 0) :=
  prg_header_length_fields [72, 69, 76, 76, 79] [0, 10, 3, 0, 65, 66, 13] (by decide)
    (by decide)

/-! ## The bootstrap program builder: C10 -/

theorem decimalFuel_length_le (fuel n k : Nat) (h : n < 10 ^ (k + 1)) :
    (decimalFuel fuel n).length ≤ k + 1 := by
  induction fuel generalizing n k with
  | zero => simp [decimalFuel]
  | succ fuel ih =>
    simp only [decimalFuel]
    split
    · simp
    · rename_i h10
      cases k with
      | zero => omega
      | succ k =>
        have hdiv : n / 10 < 10 ^ (k + 1) := by
          apply Nat.div_lt_of_lt_mul
          rw [← Nat.pow_succ']
          exact h
        have := ih (n / 10) k hdiv
        simp only [List.length_append, List.length_singleton]
        omega

theorem decimalFuel_mem (fuel n b : Nat) (hb : b ∈ decimalFuel fuel n) :
    48 ≤ b ∧ b ≤ 57 := by
  induction fuel generalizing n with
  | zero => simp [decimalFuel] at hb
  | succ fuel ih =>
    simp only [decimalFuel] at hb
    split at hb
    · simp only [List.mem_singleton] at hb
      omega
    · simp only [List.mem_append, List.mem_singleton] at hb
      rcases hb with hb | hb
      · exact ih _ hb
      · omega

/-- A 32-bit `int` prints with `%d` in at most 11 characters. -/
theorem format_d_length_le (x : Int) (hx : IsInt32 x) : (format_d x).length ≤ 11 := by
  have habs : x.natAbs < 10 ^ (9 + 1) := by
    unfold IsInt32 at hx
    omega
  have := decimalFuel_length_le (x.natAbs + 1) x.natAbs 9 habs
  simp only [format_d, decimal]
  split
  · simp only [List.length_cons]
    omega
  · omega

/-- The characters `%d` prints are a minus sign or decimal digits. -/
theorem format_d_mem (x : Int) (b : Nat) (hb : b ∈ format_d x) :
    b = 45 ∨ (48 ≤ b ∧ b ≤ 57) := by
  simp only [format_d, decimal] at hb
  split at hb
  · simp only [List.mem_cons] at hb
    rcases hb with hb | hb
    · exact Or.inl hb
    · exact Or.inr (decimalFuel_mem _ _ _ hb)
  · exact Or.inr (decimalFuel_mem _ _ _ hb)

theorem wrap32_isInt32 (x : Int) : IsInt32 (wrap32 x) := by
  unfold IsInt32 wrap32
  omega

theorem wrap32_of_isInt32 (x : Int) (hx : IsInt32 x) : wrap32 x = x := by
  unfold IsInt32 at hx
  unfold wrap32
  omega

/-- The line encoder in terms of `encoded_line`, for a line number that fits
16 bits. -/
theorem create_zx_basic_line_encoded (n : Nat) (line_fmt : List Nat) (args : List Int)
    (hn : n < 65536) (hnul : ∀ b ∈ vsprintf line_fmt args, b ≠ 0)
    (hlen : (vsprintf line_fmt args).length < 1024) :
    create_zx_basic_line (n : Int) line_fmt args
      = some (encoded_line n (vsprintf line_fmt args)) := by
  rw [create_zx_basic_line_eq (n : Int) line_fmt args hnul hlen]
  have h₁ : toByte ((n : Int) / 256) = n / 256 := by
    simp only [toByte]
    omega
  have h₂ : toByte ((n : Int) % 256) = n % 256 := by
    simp only [toByte]
    omega
  rw [h₁, h₂, encoded_line]

theorem vsprintf_clear (x : Int) :
    vsprintf (CLEAR ++ VAL ++ [0x22, 37, 100, 0x22]) [x]
      = [0xFD, 0xB0, 0x22] ++ format_d x ++ [0x22] := by
  simp [vsprintf, CLEAR, VAL]

theorem vsprintf_randomize (x : Int) :
    vsprintf (RANDOMIZE ++ USR ++ VAL ++ [0x22, 37, 100, 0x22]) [x]
      = [0xF9, 0xC0, 0xB0, 0x22] ++ format_d x ++ [0x22] := by
  simp [vsprintf, RANDOMIZE, USR, VAL]

/-- The first line of the listing: `CLEAR VAL"<x>"`. -/
theorem line_clear (x : Int) (hx : IsInt32 x) :
    create_zx_basic_line 10 (CLEAR ++ VAL ++ [0x22, 37, 100, 0x22]) [x]
      = some (encoded_line 10 ([0xFD, 0xB0, 0x22] ++ format_d x ++ [0x22])) := by
  have hl := format_d_length_le x hx
  have h := create_zx_basic_line_encoded 10 (CLEAR ++ VAL ++ [0x22, 37, 100, 0x22]) [x]
    (by decide)
    (by
      rw [vsprintf_clear]
      intro b hb
      simp only [List.mem_append, List.mem_cons, List.mem_singleton, List.not_mem_nil,
        or_false] at hb
      rcases hb with (hb | hb) | hb
      · omega
      · rcases format_d_mem x b hb with h | h <;> omega
      · omega)
    (by
      rw [vsprintf_clear]
      simp only [List.length_append, List.length_cons, List.length_nil]
      omega)
  rw [vsprintf_clear] at h
  exact h

/-- The last line of the listing: `RANDOMIZE USR VAL"<x>"`, numbered `n`. -/
theorem line_randomize (n : Nat) (x : Int) (hn : n < 65536) (hx : IsInt32 x) :
    create_zx_basic_line (n : Int) (RANDOMIZE ++ USR ++ VAL ++ [0x22, 37, 100, 0x22]) [x]
      = some (encoded_line n ([0xF9, 0xC0, 0xB0, 0x22] ++ format_d x ++ [0x22])) := by
  have hl := format_d_length_le x hx
  have h := create_zx_basic_line_encoded n
    (RANDOMIZE ++ USR ++ VAL ++ [0x22, 37, 100, 0x22]) [x] hn
    (by
      rw [vsprintf_randomize]
      intro b hb
      simp only [List.mem_append, List.mem_cons, List.mem_singleton, List.not_mem_nil,
        or_false] at hb
      rcases hb with (hb | hb) | hb
      · omega
      · rcases format_d_mem x b hb with h | h <;> omega
      · omega)
    (by
      rw [vsprintf_randomize]
      simp only [List.length_append, List.length_cons, List.length_nil]
      omega)
  rw [vsprintf_randomize] at h
  exact h

theorem line_border :
    create_zx_basic_line (10 + 10)
        (BORDER ++ BLACK ++ [0x3A] ++ PAPER ++ BLACK ++ [0x3A] ++ INK ++ WHITE ++ [0x3A] ++ CLS)
        []
      = some (encoded_line 20 [0xE7, 0xB0, 0x22, 0x30, 0x22, 0x3A, 0xDA, 0xB0, 0x22, 0x30,
          0x22, 0x3A, 0xD9, 0xB0, 0x22, 0x37, 0x22, 0x3A, 0xFB]) := by
  decide

theorem line_poke_111 :
    create_zx_basic_line (10 + 10 + 10)
        (POKE ++ VAL ++ [0x22, 0x32, 0x33, 0x37, 0x33, 0x39, 0x22, 0x2C] ++ VAL
          ++ [0x22, 0x31, 0x31, 0x31, 0x22]) []
      = some (encoded_line 30 [0xF4, 0xB0, 0x22, 0x32, 0x33, 0x37, 0x33, 0x39, 0x22, 0x2C,
          0xB0, 0x22, 0x31, 0x31, 0x31, 0x22]) := by
  decide

theorem line_load (n : Nat) (hn : n < 65536) :
    create_zx_basic_line (n : Int) (LOAD ++ [0x22, 0x22] ++ CODE) []
      = some (encoded_line n [0xEF, 0x22, 0x22, 0xAF]) :=
  create_zx_basic_line_encoded n (LOAD ++ [0x22, 0x22] ++ CODE) [] hn (by decide) (by decide)

theorem line_poke_244 (n : Nat) (hn : n < 65536) :
    create_zx_basic_line (n : Int)
        (POKE ++ VAL ++ [0x22, 0x32, 0x33, 0x37, 0x33, 0x39, 0x22, 0x2C] ++ VAL
          ++ [0x22, 0x32, 0x34, 0x34, 0x22]) []
      = some (encoded_line n [0xF4, 0xB0, 0x22, 0x32, 0x33, 0x37, 0x33, 0x39, 0x22, 0x2C,
          0xB0, 0x22, 0x32, 0x34, 0x34, 0x22]) :=
  create_zx_basic_line_encoded n _ [] hn (by decide) (by decide)

/-- Closed form of the listing: for every start address and every 32-bit
exec address the builder returns the concatenation of its six (without a
screen) or seven (with one) encoded lines. -/
theorem basic_loader_listing_eq (start_address exec_address : Int)
    (screen_file_name : Option (List Nat)) (hexec : IsInt32 exec_address) :
    basic_loader_listing start_address exec_address screen_file_name =
      some (encoded_line 10 ([0xFD, 0xB0, 0x22] ++ format_d (wrap32 (start_address - 1))
          ++ [0x22])
        ++ encoded_line 20 [0xE7, 0xB0, 0x22, 0x30, 0x22, 0x3A, 0xDA, 0xB0, 0x22, 0x30,
          0x22, 0x3A, 0xD9, 0xB0, 0x22, 0x37, 0x22, 0x3A, 0xFB]
        ++ encoded_line 30 [0xF4, 0xB0, 0x22, 0x32, 0x33, 0x37, 0x33, 0x39, 0x22, 0x2C,
          0xB0, 0x22, 0x31, 0x31, 0x31, 0x22]
        ++ (if screen_file_name.isSome then
            encoded_line 40 [0xEF, 0x22, 0x22, 0xAF]
              ++ encoded_line 50 [0xEF, 0x22, 0x22, 0xAF]
              ++ encoded_line 60 [0xF4, 0xB0, 0x22, 0x32, 0x33, 0x37, 0x33, 0x39, 0x22, 0x2C,
                0xB0, 0x22, 0x32, 0x34, 0x34, 0x22]
              ++ encoded_line 70 ([0xF9, 0xC0, 0xB0, 0x22] ++ format_d exec_address ++ [0x22])
          else
            encoded_line 40 [0xEF, 0x22, 0x22, 0xAF]
              ++ encoded_line 50 [0xF4, 0xB0, 0x22, 0x32, 0x33, 0x37, 0x33, 0x39, 0x22, 0x2C,
                0xB0, 0x22, 0x32, 0x34, 0x34, 0x22]
              ++ encoded_line 60 ([0xF9, 0xC0, 0xB0, 0x22] ++ format_d exec_address
                ++ [0x22]))) := by
  have e40 : ((10 : Int) + 10 + 10 + 10) = ((40 : Nat) : Int) := by norm_num
  have e50 : (((40 : Nat) : Int) + 10) = ((50 : Nat) : Int) := by norm_num
  have e60 : (((50 : Nat) : Int) + 10) = ((60 : Nat) : Int) := by norm_num
  have e70 : (((60 : Nat) : Int) + 10) = ((70 : Nat) : Int) := by norm_num
  simp only [basic_loader_listing, line_clear _ (wrap32_isInt32 (start_address - 1)),
    line_border, line_poke_111, e40, e50, e60, e70]
  cases screen_file_name with
  | none =>
    simp only [line_load 40 (by decide), line_poke_244 50 (by decide),
      line_randomize 60 exec_address (by decide) hexec]
    simp
  | some f =>
    simp only [line_load 40 (by decide), line_load 50 (by decide),
      line_poke_244 60 (by decide), line_randomize 70 exec_address (by decide) hexec]
    simp

theorem drop_hdr (ty : Nat) (l tail : List Nat) (i : Nat) (hl : l.length = 10) :
    (ty :: (l ++ tail)).drop (11 + i) = tail.drop i := by
  rw [show 11 + i = (10 + i) + 1 by omega, List.drop_succ_cons, List.drop_append_eq_append_drop,
    List.drop_of_length_le (by omega), List.nil_append, hl]
  congr 1
  omega

/-- The bytes 13..14 of the program header are the listing's second byte
followed by its first byte. -/
theorem prg_hdr_autostart (fname : List Nat) (d0 d1 : Nat) (rest : List Nat) :
    ∃ hdr, prg_hdr fname (d0 :: d1 :: rest) = some hdr ∧ (hdr.drop 13).take 2 = [d1, d0] := by
  refine ⟨_, prg_hdr_cons fname d0 d1 rest, ?_⟩
  rw [drop_hdr TAP_HDR_BASIC (hdr_name fname) _ 2 (hdr_name_length fname)]
  rfl

/-- C10: for every listing of at least two bytes, the two-byte autostart
field that `tap_write_prg_header` writes (bytes 13..14 of the record) is the
listing's second byte followed by its first byte; and for every listing that
`tap_create_zx_basic_loader` builds, whatever the addresses and the screen
setting, this field is `0x0A, 0x00`, the first line number 10 in
little-endian. -/
theorem prg_header_autostart_field (fname name listing : List Nat)
    (start_address exec_address : Int) (screen_file_name : Option (List Nat))
    (h2 : 2 ≤ listing.length) (hexec : IsInt32 exec_address) :
    (∃ d0 d1 hdr, listing[0]? = some d0 ∧ listing[1]? = some d1 ∧
        prg_hdr fname listing = some hdr ∧ (hdr.drop 13).take 2 = [d1, d0]) ∧
      (∃ basic_loader hdr,
        basic_loader_listing start_address exec_address screen_file_name = some basic_loader ∧
        prg_hdr name basic_loader = some hdr ∧
        tap_create_zx_basic_loader name start_address exec_address screen_file_name
          = some (tap_write_data_block_with_checksum 0 hdr
              ++ tap_write_data_block_with_checksum 0xFF basic_loader) ∧
        (hdr.drop 13).take 2 = [0x0A, 0x00] ∧
        le16 0x0A 0x00 = 10) := by
  constructor
  · obtain ⟨d0, d1, rest, rfl⟩ := exists_cons_cons_of_two_le listing h2
    obtain ⟨hdr, h₁, h₂⟩ := prg_hdr_autostart fname d0 d1 rest
    exact ⟨d0, d1, hdr, by simp, by simp, h₁, h₂⟩
  · have hl := basic_loader_listing_eq start_address exec_address screen_file_name hexec
    rw [encoded_line, show (10 : Nat) / 256 = 0 from rfl, show (10 : Nat) % 256 = 10 from rfl]
      at hl
    simp only [List.cons_append, List.nil_append] at hl
    obtain ⟨hdr, h₁, h₂⟩ := prg_hdr_autostart name 0 10 _
    refine ⟨_, hdr, hl, h₁, ?_, h₂, by decide⟩
    simp only [tap_create_zx_basic_loader, hl, tap_write_prg_header, h₁, Option.map_some',
      Option.bind_eq_bind, Option.some_bind, Option.pure_def]

/-- Witness of C10: the HELLO scenario (start and exec address 32768, no
screen) and a 7-byte listing. -/
theorem prg_header_autostart_field_witness :
    (∃ d0 d1 hdr, [0, 10, 3, 0, 65, 66, 13][0]? = some d0 ∧
        [0, 10, 3, 0, 65, 66, 13][1]? = some d1 ∧
        prg_hdr [72, 69, 76, 76, 79] [0, 10, 3, 0, 65, 66, 13] = some hdr ∧
        (hdr.drop 13).take 2 = [d1, d0]) ∧
      (∃ basic_loader hdr,
        basic_loader_listing 32768 32768 none = some basic_loader ∧
        prg_hdr [72, 69, 76, 76, 79] basic_loader = some hdr ∧
        tap_create_zx_basic_loader [72, 69, 76, 76, 79] 32768 32768 none
          = some (tap_write_data_block_with_checksum 0 hdr
              ++ tap_write_data_block_with_checksum 0xFF basic_loader) ∧
        (hdr.drop 13).take 2 = [0x0A, 0x00] ∧
        le16 0x0A 0x00 = 10) :=
  prg_header_autostart_field [72, 69, 76, 76, 79] [72, 69, 76, 76, 79]
    [0, 10, 3, 0, 65, 66, 13] 32768 32768 none (by decide) (by decide)

/-! ## The listing as a sequence of lines: lemmas for C11 - C14 and C18 - C20 -/

/-- The listing is the concatenation of the encodings of `loader_lines`. -/
theorem basic_loader_listing_all_lines (start_address exec_address : Int)
    (screen_file_name : Option (List Nat)) (hexec : IsInt32 exec_address) :
    basic_loader_listing start_address exec_address screen_file_name
      = some (all_lines (loader_lines start_address exec_address screen_file_name.isSome)) := by
  rw [basic_loader_listing_eq start_address exec_address screen_file_name hexec]
  cases screen_file_name <;> simp [all_lines, loader_lines]

theorem encoded_line_length (n : Nat) (t : List Nat) :
    (encoded_line n t).length = t.length + 5 := by
  simp [encoded_line]

theorem length_le_all_lines_length (ls : List (Nat × List Nat)) :
    ls.length ≤ (all_lines ls).length := by
  induction ls with
  | nil => simp [all_lines]
  | cons p ls ih =>
    simp only [all_lines, List.length_cons, List.length_append, encoded_line_length]
    omega

/-- The reader recovers every line from the concatenation of encoded lines,
given one unit of fuel per line. -/
theorem read_lines_all_lines (ls : List (Nat × List Nat)) (fuel : Nat)
    (hfuel : ls.length ≤ fuel) :
    read_lines fuel (all_lines ls) = some (ls.map as_read) := by
  induction ls generalizing fuel with
  | nil => simp [all_lines, read_lines]
  | cons p ls ih =>
    obtain ⟨fuel, rfl⟩ : ∃ f, fuel = f + 1 := ⟨fuel - 1, by
      simp only [List.length_cons] at hfuel
      omega⟩
    have hfuel' : ls.length ≤ fuel := by
      simp only [List.length_cons] at hfuel
      omega
    have hle : le16 ((p.2.length + 1) % 256) ((p.2.length + 1) / 256) = p.2.length + 1 := by
      simp only [le16]
      omega
    have hnum : 256 * (p.1 / 256) + p.1 % 256 = p.1 := by omega
    have htake : List.take (p.2.length + 1) (p.2 ++ [13] ++ all_lines ls) = p.2 ++ [13] := by
      rw [List.take_append_of_le_length (by simp)]
      exact List.take_of_length_le (by simp)
    have hdrop : List.drop (p.2.length + 1) (p.2 ++ [13] ++ all_lines ls) = all_lines ls := by
      rw [List.drop_append_of_le_length (by simp)]
      rw [List.drop_of_length_le (by simp)]
      rfl
    have hform : all_lines (p :: ls) = p.1 / 256 :: p.1 % 256 :: ((p.2.length + 1) % 256)
        :: ((p.2.length + 1) / 256) :: (p.2 ++ [13] ++ all_lines ls) := by
      simp [all_lines, encoded_line]
    rw [hform, read_lines, hle, if_pos (by simp), htake, hdrop, ih fuel hfuel', hnum]
    rfl

theorem parse_listing_all_lines (ls : List (Nat × List Nat)) :
    parse_listing (all_lines ls) = some (ls.map as_read) :=
  read_lines_all_lines ls _ (length_le_all_lines_length ls)

/-- The builder is the sequence of its calls of the line encoder. -/
theorem basic_loader_listing_eq_run_calls (start_address exec_address : Int)
    (screen_file_name : Option (List Nat)) :
    basic_loader_listing start_address exec_address screen_file_name
      = run_calls (basic_loader_calls start_address exec_address screen_file_name) := by
  cases screen_file_name <;>
    simp [basic_loader_listing, basic_loader_calls, run_calls, Option.bind_assoc]

theorem digits_value_concat (ds : List Nat) (c : Nat) :
    digits_value (ds ++ [c]) = 10 * digits_value ds + (c - 48) := by
  simp [digits_value]

/-- The digits printed for `n` denote `n`. -/
theorem digits_value_decimalFuel (fuel n : Nat) (h : n < fuel) :
    digits_value (decimalFuel fuel n) = n := by
  induction fuel generalizing n with
  | zero => omega
  | succ fuel ih =>
    simp only [decimalFuel]
    split
    · simp [digits_value]
    · rw [digits_value_concat, ih (n / 10) (by omega)]
      omega

theorem digits_value_decimal (n : Nat) : digits_value (decimal n) = n :=
  digits_value_decimalFuel (n + 1) n (by omega)

/-! ## The bootstrap program builder: C11 - C14 -/

/-- C11: for every start address and exec address in 0..65535, the listing
built by `tap_create_zx_basic_loader` without a screen file is exactly the
concatenation of six encoded lines numbered 10, 20, 30, 40, 50, 60 with the
texts `CLEAR VAL"<start-1>"`, `BORDER VAL"0":PAPER VAL"0":INK VAL"7":CLS`,
`POKE VAL"23739",VAL"111"`, `LOAD""CODE`, `POKE VAL"23739",VAL"244"` and
`RANDOMIZE USR VAL"<exec>"`, the keywords being single token bytes; with a
screen file there are seven lines numbered 10 to 70 in the same step order,
a second `LOAD""CODE` line coming in as line 40. -/
theorem loader_listing_is_six_or_seven_lines (start_address exec_address : Int)
    (hs₀ : 0 ≤ start_address) (hs : start_address < 65536)
    (he₀ : 0 ≤ exec_address) (he : exec_address < 65536) :
    basic_loader_listing start_address exec_address none =
        some (encoded_line 10 (CLEAR ++ VAL ++ [0x22] ++ format_d (start_address - 1) ++ [0x22])
          ++ encoded_line 20 (BORDER ++ VAL ++ [0x22, 0x30, 0x22] ++ [0x3A]
              ++ PAPER ++ VAL ++ [0x22, 0x30, 0x22] ++ [0x3A]
              ++ INK ++ VAL ++ [0x22, 0x37, 0x22] ++ [0x3A] ++ CLS)
          ++ encoded_line 30 (POKE ++ VAL ++ [0x22, 0x32, 0x33, 0x37, 0x33, 0x39, 0x22]
              ++ [0x2C] ++ VAL ++ [0x22, 0x31, 0x31, 0x31, 0x22])
          ++ encoded_line 40 (LOAD ++ [0x22, 0x22] ++ CODE)
          ++ encoded_line 50 (POKE ++ VAL ++ [0x22, 0x32, 0x33, 0x37, 0x33, 0x39, 0x22]
              ++ [0x2C] ++ VAL ++ [0x22, 0x32, 0x34, 0x34, 0x22])
          ++ encoded_line 60 (RANDOMIZE ++ USR ++ VAL ++ [0x22] ++ format_d exec_address
              ++ [0x22])) ∧
      (∀ screen_file_name : List Nat,
        basic_loader_listing start_address exec_address (some screen_file_name) =
          some (encoded_line 10 (CLEAR ++ VAL ++ [0x22] ++ format_d (start_address - 1)
              ++ [0x22])
            ++ encoded_line 20 (BORDER ++ VAL ++ [0x22, 0x30, 0x22] ++ [0x3A]
                ++ PAPER ++ VAL ++ [0x22, 0x30, 0x22] ++ [0x3A]
                ++ INK ++ VAL ++ [0x22, 0x37, 0x22] ++ [0x3A] ++ CLS)
            ++ encoded_line 30 (POKE ++ VAL ++ [0x22, 0x32, 0x33, 0x37, 0x33, 0x39, 0x22]
                ++ [0x2C] ++ VAL ++ [0x22, 0x31, 0x31, 0x31, 0x22])
            ++ encoded_line 40 (LOAD ++ [0x22, 0x22] ++ CODE)
            ++ encoded_line 50 (LOAD ++ [0x22, 0x22] ++ CODE)
            ++ encoded_line 60 (POKE ++ VAL ++ [0x22, 0x32, 0x33, 0x37, 0x33, 0x39, 0x22]
                ++ [0x2C] ++ VAL ++ [0x22, 0x32, 0x34, 0x34, 0x22])
            ++ encoded_line 70 (RANDOMIZE ++ USR ++ VAL ++ [0x22] ++ format_d exec_address
                ++ [0x22]))) ∧
      (CLEAR = [0xFD] ∧ BORDER = [0xE7] ∧ PAPER = [0xDA] ∧ INK = [0xD9] ∧ CLS = [0xFB] ∧
        POKE = [0xF4] ∧ LOAD = [0xEF] ∧ CODE = [0xAF] ∧ RANDOMIZE = [0xF9] ∧ USR = [0xC0] ∧
        VAL = [0xB0]) := by
  have hexec : IsInt32 exec_address := by
    unfold IsInt32
    omega
  have hw : wrap32 (start_address - 1) = start_address - 1 :=
    wrap32_of_isInt32 _ (by unfold IsInt32; omega)
  refine ⟨?_, ?_, by decide⟩
  · rw [basic_loader_listing_eq start_address exec_address none hexec, hw]
    simp [CLEAR, BORDER, PAPER, INK, CLS, POKE, LOAD, CODE, RANDOMIZE, USR, VAL]
  · intro f
    rw [basic_loader_listing_eq start_address exec_address (some f) hexec, hw]
    simp [CLEAR, BORDER, PAPER, INK, CLS, POKE, LOAD, CODE, RANDOMIZE, USR, VAL]

/-- Witness of C11: the listing of the HELLO scenario (start and exec address
32768, no screen). -/
theorem loader_listing_is_six_or_seven_lines_witness :
    basic_loader_listing 32768 32768 none =
        some (encoded_line 10 (CLEAR ++ VAL ++ [0x22] ++ format_d (32768 - 1) ++ [0x22])
          ++ encoded_line 20 (BORDER ++ VAL ++ [0x22, 0x30, 0x22] ++ [0x3A]
              ++ PAPER ++ VAL ++ [0x22, 0x30, 0x22] ++ [0x3A]
              ++ INK ++ VAL ++ [0x22, 0x37, 0x22] ++ [0x3A] ++ CLS)
          ++ encoded_line 30 (POKE ++ VAL ++ [0x22, 0x32, 0x33, 0x37, 0x33, 0x39, 0x22]
              ++ [0x2C] ++ VAL ++ [0x22, 0x31, 0x31, 0x31, 0x22])
          ++ encoded_line 40 (LOAD ++ [0x22, 0x22] ++ CODE)
          ++ encoded_line 50 (POKE ++ VAL ++ [0x22, 0x32, 0x33, 0x37, 0x33, 0x39, 0x22]
              ++ [0x2C] ++ VAL ++ [0x22, 0x32, 0x34, 0x34, 0x22])
          ++ encoded_line 60 (RANDOMIZE ++ USR ++ VAL ++ [0x22] ++ format_d 32768
              ++ [0x22])) :=
  (loader_listing_is_six_or_seven_lines 32768 32768 (by decide) (by decide) (by decide)
    (by decide)).1

/-- The listing read back: the reader returns the lines of `loader_lines`. -/
theorem parse_basic_loader_listing (start_address exec_address : Int)
    (screen_file_name : Option (List Nat)) (hexec : IsInt32 exec_address) :
    ∃ listing, basic_loader_listing start_address exec_address screen_file_name = some listing ∧
      listing = all_lines (loader_lines start_address exec_address screen_file_name.isSome) ∧
      parse_listing listing
        = some ((loader_lines start_address exec_address screen_file_name.isSome).map as_read) :=
  ⟨_, basic_loader_listing_all_lines start_address exec_address screen_file_name hexec, rfl,
    parse_listing_all_lines _⟩

/-- C12: for start address 32768 and exec address 32768 with no screen, the
first line read back from the listing has number 10 and text
`CLEAR VAL"32767"` (bytes FD B0 22 33 32 37 36 37 22), the last line has text
`RANDOMIZE USR VAL"32768"` (bytes F9 C0 B0 22 33 32 37 36 38 22) and number
60 = 10 + 10 * (6 - 1); and for every start and exec address and either
screen setting the number of the last line is 10 + 10 * (number of lines - 1). -/
theorem loader_first_and_last_line (start_address exec_address : Int)
    (screen_file_name : Option (List Nat)) (hexec : IsInt32 exec_address) :
    (∃ listing ls, basic_loader_listing 32768 32768 none = some listing ∧
        parse_listing listing = some ls ∧
        ls.length = 6 ∧
        ls.head? = some (10, 10, [0xFD, 0xB0, 0x22, 0x33, 0x32, 0x37, 0x36, 0x37, 0x22, 0x0D]) ∧
        ls.getLast? = some (60, 11,
          [0xF9, 0xC0, 0xB0, 0x22, 0x33, 0x32, 0x37, 0x36, 0x38, 0x22, 0x0D]) ∧
        10 + 10 * (ls.length - 1) = 60) ∧
      (∃ listing ls last,
        basic_loader_listing start_address exec_address screen_file_name = some listing ∧
        parse_listing listing = some ls ∧
        ls.getLast? = some last ∧
        last.1 = 10 + 10 * (ls.length - 1)) := by
  constructor
  · obtain ⟨listing, h₁, -, h₂⟩ := parse_basic_loader_listing 32768 32768 none (by decide)
    exact ⟨listing, _, h₁, h₂, by decide, by decide, by decide, by decide⟩
  · obtain ⟨listing, h₁, -, h₂⟩ :=
      parse_basic_loader_listing start_address exec_address screen_file_name hexec
    cases screen_file_name with
    | none =>
      exact ⟨listing, _,
        as_read (60, [0xF9, 0xC0, 0xB0, 0x22] ++ format_d exec_address ++ [0x22]), h₁, h₂,
        by simp [loader_lines], by simp [loader_lines, as_read]⟩
    | some f =>
      exact ⟨listing, _,
        as_read (70, [0xF9, 0xC0, 0xB0, 0x22] ++ format_d exec_address ++ [0x22]), h₁, h₂,
        by simp [loader_lines], by simp [loader_lines, as_read]⟩

/-- Witness of C12: exec address 49152 with a screen file. -/
theorem loader_first_and_last_line_witness :
    (∃ listing ls, basic_loader_listing 32768 32768 none = some listing ∧
        parse_listing listing = some ls ∧
        ls.length = 6 ∧
        ls.head? = some (10, 10, [0xFD, 0xB0, 0x22, 0x33, 0x32, 0x37, 0x36, 0x37, 0x22, 0x0D]) ∧
        ls.getLast? = some (60, 11,
          [0xF9, 0xC0, 0xB0, 0x22, 0x33, 0x32, 0x37, 0x36, 0x38, 0x22, 0x0D]) ∧
        10 + 10 * (ls.length - 1) = 60) ∧
      (∃ listing ls last,
        basic_loader_listing 32768 49152 (some [0x73]) = some listing ∧
        parse_listing listing = some ls ∧
        ls.getLast? = some last ∧
        last.1 = 10 + 10 * (ls.length - 1)) :=
  loader_first_and_last_line 32768 49152 (some [0x73]) (by decide)

/-- C13, the code at a failing input: with a screen file (start and exec
address 32768), the fourth and the fifth line read back from the listing are
numbered 40 and 50 and have the same five-byte body, `LOAD""CODE` and the
terminator; the fourth line carries no address. -/
theorem screen_load_line_has_no_address :
    ((basic_loader_listing 32768 32768 (some [0x73])).bind parse_listing).map
        (fun ls => (ls.drop 3).take 2)
      = some [(40, 5, [0xEF, 0x22, 0x22, 0xAF, 0x0D]), (50, 5, [0xEF, 0x22, 0x22, 0xAF, 0x0D])] := by
  decide

/-- C14: for every start and exec address, the listing built with a screen
file has exactly one more line than the listing built without one, the
load-screen line at position 4, numbered 40; the first three lines are
identical in both; and the last three lines (load code, restore poke, launch)
have identical length fields and bodies (text and terminator) in both, with
line numbers 40, 50, 60 without a screen and 50, 60, 70 with one. -/
theorem listing_with_and_without_screen (start_address exec_address : Int)
    (screen_file_name : List Nat) (hexec : IsInt32 exec_address) :
    ∃ l6 l7 ls6 ls7,
      basic_loader_listing start_address exec_address none = some l6 ∧
      basic_loader_listing start_address exec_address (some screen_file_name) = some l7 ∧
      parse_listing l6 = some ls6 ∧ parse_listing l7 = some ls7 ∧
      ls6.length = 6 ∧ ls7.length = ls6.length + 1 ∧
      ls7[3]? = some (40, 5, [0xEF, 0x22, 0x22, 0xAF, 0x0D]) ∧
      ls7.take 3 = ls6.take 3 ∧
      (ls7.drop 4).map (fun l => l.2) = (ls6.drop 3).map (fun l => l.2) ∧
      (ls6.drop 3).map (fun l => l.1) = [40, 50, 60] ∧
      (ls7.drop 4).map (fun l => l.1) = [50, 60, 70] ∧
      (ls7.drop 4).map (fun l => l.1) = (ls6.drop 3).map (fun l => l.1 + 10) := by
  obtain ⟨l6, h6, -, p6⟩ := parse_basic_loader_listing start_address exec_address none hexec
  obtain ⟨l7, h7, -, p7⟩ :=
    parse_basic_loader_listing start_address exec_address (some screen_file_name) hexec
  refine ⟨l6, l7, _, _, h6, h7, p6, p7, ?_, ?_, ?_, ?_, ?_, ?_, ?_, ?_⟩ <;>
    simp [loader_lines, as_read]

/-- Witness of C14: the HELLO scenario with and without a screen file. -/
theorem listing_with_and_without_screen_witness :
    ∃ l6 l7 ls6 ls7,
      basic_loader_listing 32768 32768 none = some l6 ∧
      basic_loader_listing 32768 32768 (some [0x73]) = some l7 ∧
      parse_listing l6 = some ls6 ∧ parse_listing l7 = some ls7 ∧
      ls6.length = 6 ∧ ls7.length = ls6.length + 1 ∧
      ls7[3]? = some (40, 5, [0xEF, 0x22, 0x22, 0xAF, 0x0D]) ∧
      ls7.take 3 = ls6.take 3 ∧
      (ls7.drop 4).map (fun l => l.2) = (ls6.drop 3).map (fun l => l.2) ∧
      (ls6.drop 3).map (fun l => l.1) = [40, 50, 60] ∧
      (ls7.drop 4).map (fun l => l.1) = [50, 60, 70] ∧
      (ls7.drop 4).map (fun l => l.1) = (ls6.drop 3).map (fun l => l.1 + 10) :=
  listing_with_and_without_screen 32768 32768 [0x73] (by decide)

/-! ## The container writer: C15 -/

/-- The loader writes the program header block and the listing block. -/
theorem tap_create_zx_basic_loader_eq (name : List Nat) (start_address exec_address : Int)
    (screen_file_name : Option (List Nat)) (hexec : IsInt32 exec_address) :
    ∃ listing hdr,
      basic_loader_listing start_address exec_address screen_file_name = some listing ∧
      prg_hdr name listing = some hdr ∧
      tap_create_zx_basic_loader name start_address exec_address screen_file_name
        = some (tap_write_data_block_with_checksum 0 hdr
            ++ tap_write_data_block_with_checksum 0xFF listing) := by
  have hl := basic_loader_listing_eq start_address exec_address screen_file_name hexec
  rw [encoded_line] at hl
  simp only [List.cons_append, List.nil_append] at hl
  obtain ⟨hdr, h₁, -⟩ := prg_hdr_autostart name _ _ _
  refine ⟨_, hdr, hl, h₁, ?_⟩
  simp only [tap_create_zx_basic_loader, hl, tap_write_prg_header, h₁, Option.map_some',
    Option.bind_eq_bind, Option.some_bind, Option.pure_def]

/-- C15: for every program name, start and exec address, code payload and
optional screen payload, the bytes the processing step of `main` writes are,
in this order, the frame with flag 0x00 of the program header, the frame with
flag 0xFF of the listing, then only with a screen the frame with flag 0x00 of
the code header for the name `code`, the screen length and address 16384 and
the frame with flag 0xFF of the screen, then always the frame with flag 0x00
of the code header for the name `code`, the code length and the start address
and the frame with flag 0xFF of the code: 4 blocks without a screen, 6 with
one, and the file names do not appear in the output. -/
theorem main_process_blocks (fs : List Nat → Option (List Nat)) (prg_name : List Nat)
    (start_address exec_address : Int) (code_file_name code : List Nat)
    (hexec : IsInt32 exec_address) (hcode : fs code_file_name = some code) :
    (∃ listing hdr,
        basic_loader_listing start_address exec_address none = some listing ∧
        prg_hdr prg_name listing = some hdr ∧
        main_process fs prg_name start_address exec_address none (some code_file_name)
          = some (tap_write_data_block_with_checksum 0x00 hdr
              ++ tap_write_data_block_with_checksum 0xFF listing
              ++ tap_write_data_block_with_checksum 0x00
                  (code_hdr [0x63, 0x6F, 0x64, 0x65] code start_address)
              ++ tap_write_data_block_with_checksum 0xFF code)) ∧
      (∀ screen_file_name screen : List Nat, fs screen_file_name = some screen →
        ∃ listing hdr,
          basic_loader_listing start_address exec_address (some screen_file_name)
            = some listing ∧
          prg_hdr prg_name listing = some hdr ∧
          main_process fs prg_name start_address exec_address (some screen_file_name)
              (some code_file_name)
            = some (tap_write_data_block_with_checksum 0x00 hdr
                ++ tap_write_data_block_with_checksum 0xFF listing
                ++ tap_write_data_block_with_checksum 0x00
                    (code_hdr [0x63, 0x6F, 0x64, 0x65] screen 16384)
                ++ tap_write_data_block_with_checksum 0xFF screen
                ++ tap_write_data_block_with_checksum 0x00
                    (code_hdr [0x63, 0x6F, 0x64, 0x65] code start_address)
                ++ tap_write_data_block_with_checksum 0xFF code)) := by
  constructor
  · obtain ⟨listing, hdr, h₁, h₂, h₃⟩ :=
      tap_create_zx_basic_loader_eq prg_name start_address exec_address none hexec
    refine ⟨listing, hdr, h₁, h₂, ?_⟩
    simp [main_process, h₃, tap_create_code, hcode, tap_write_code_header]
  · intro screen_file_name screen hscreen
    obtain ⟨listing, hdr, h₁, h₂, h₃⟩ :=
      tap_create_zx_basic_loader_eq prg_name start_address exec_address
        (some screen_file_name) hexec
    refine ⟨listing, hdr, h₁, h₂, ?_⟩
    simp [main_process, h₃, tap_create_code, hcode, hscreen, tap_write_code_header]

/-- Witness of C15: the HELLO scenario, the code file holding the three
bytes 3E 05 C9. -/
theorem main_process_blocks_witness :
    ∃ listing hdr,
      basic_loader_listing 32768 32768 none = some listing ∧
      prg_hdr [72, 69, 76, 76, 79] listing = some hdr ∧
      main_process (fun _ => some [0x3E, 0x05, 0xC9]) [72, 69, 76, 76, 79] 32768 32768 none
          (some [0x63])
        = some (tap_write_data_block_with_checksum 0x00 hdr
            ++ tap_write_data_block_with_checksum 0xFF listing
            ++ tap_write_data_block_with_checksum 0x00
                (code_hdr [0x63, 0x6F, 0x64, 0x65] [0x3E, 0x05, 0xC9] 32768)
            ++ tap_write_data_block_with_checksum 0xFF [0x3E, 0x05, 0xC9]) :=
  (main_process_blocks (fun _ => some [0x3E, 0x05, 0xC9]) [72, 69, 76, 76, 79] 32768 32768
    [0x63] [0x3E, 0x05, 0xC9] (by decide) rfl).1

/-! ## The block framer on long payloads and its length prefix: C16, C17 -/

theorem frame_length (flags : Nat) (data : List Nat) :
    (tap_write_data_block_with_checksum flags data).length = data.length + 4 := by
  simp [frame_eq, fwrite_int16]

theorem frame_take_two (flags : Nat) (data : List Nat) :
    (tap_write_data_block_with_checksum flags data).take 2
      = [(data.length + 2) % 65536 % 256, (data.length + 2) % 65536 / 256] := by
  simp [frame_eq, fwrite_int16]

/-- C16, as stated, fails: a payload of 65534 bytes is not rejected; a frame
of 65538 bytes is written whose length field reads 0. -/
theorem frame_oversized_not_rejected :
    (tap_write_data_block_with_checksum 0xFF (List.replicate 65534 0)).length = 65538 ∧
      (tap_write_data_block_with_checksum 0xFF (List.replicate 65534 0)).take 2 = [0, 0] ∧
      length_field (tap_write_data_block_with_checksum 0xFF (List.replicate 65534 0)) = 0 := by
  refine ⟨?_, ?_, ?_⟩
  · rw [frame_length, List.length_replicate]
  · rw [frame_take_two, List.length_replicate]
  · rw [length_field_frame, List.length_replicate]

/-- C16, amended: `tap_write_data_block_with_checksum` has no failure mode;
for every flag and every payload of `L` bytes it writes a frame of `L + 4`
bytes whose two-byte length field reads `(L + 2) mod 65536`; a payload longer
than 65533 bytes is not rejected, and its length field is thereby truncated
to less than `L + 2`. -/
theorem frame_oversized_truncates (flags : Nat) (data : List Nat) :
    (tap_write_data_block_with_checksum flags data).length = data.length + 4 ∧
      (tap_write_data_block_with_checksum flags data).take 2
        = [(data.length + 2) % 65536 % 256, (data.length + 2) % 65536 / 256] ∧
      length_field (tap_write_data_block_with_checksum flags data)
        = (data.length + 2) % 65536 ∧
      (65533 < data.length →
        length_field (tap_write_data_block_with_checksum flags data) < data.length + 2) := by
  refine ⟨frame_length flags data, frame_take_two flags data, length_field_frame flags data, ?_⟩
  intro hL
  rw [length_field_frame]
  omega

/-- Witness of the amended C16: a payload of 65534 bytes is framed with a
length field below its length plus 2, and a payload of 3 bytes is framed in
3 + 4 bytes. -/
theorem frame_oversized_truncates_witness :
    length_field (tap_write_data_block_with_checksum 0xFF (List.replicate 65534 0))
        < (List.replicate 65534 0).length + 2 ∧
      (tap_write_data_block_with_checksum 0xFF [0x3E, 0x05, 0xC9]).length
        = [0x3E, 0x05, 0xC9].length + 4 :=
  ⟨(frame_oversized_truncates 0xFF (List.replicate 65534 0)).2.2.2
      (by rw [List.length_replicate]; decide),
    (frame_oversized_truncates 0xFF [0x3E, 0x05, 0xC9]).1⟩

/-- C17: for every flag and every payload of `L` bytes, of any length, the
two length bytes of the frame are the little-endian encoding of
`(L + 2) mod 2^16`, which is what a reader decodes from them; for
`L ≤ 65533` the length field is exactly the number of bytes that follow it in
the frame (flag, payload and checksum), so a reader that skips that many
bytes after the two length bytes stands at the start of whatever follows the
frame; and the frame of a 17-byte header with flag 0, in particular of every
code header, begins with 0x13, 0x00, 0x00. -/
theorem frame_leading_length (flags : Nat) (data rest : List Nat) (fname code : List Nat)
    (start_address : Int) :
    (tap_write_data_block_with_checksum flags data).take 2
        = [(data.length + 2) % 2 ^ 16 % 256, (data.length + 2) % 2 ^ 16 / 256] ∧
      le16 ((data.length + 2) % 2 ^ 16 % 256) ((data.length + 2) % 2 ^ 16 / 256)
        = (data.length + 2) % 2 ^ 16 ∧
      length_field (tap_write_data_block_with_checksum flags data)
        = (data.length + 2) % 2 ^ 16 ∧
      (data.length ≤ 65533 →
        length_field (tap_write_data_block_with_checksum flags data)
          = (tap_write_data_block_with_checksum flags data).length - 2 ∧
        length_field (tap_write_data_block_with_checksum flags data) = 1 + data.length + 1 ∧
        (tap_write_data_block_with_checksum flags data ++ rest).drop
            (2 + length_field (tap_write_data_block_with_checksum flags data)) = rest) ∧
      (data.length = 17 →
        (tap_write_data_block_with_checksum 0 data).take 3 = [0x13, 0x00, 0x00]) ∧
      (tap_write_code_header fname code start_address).take 3 = [0x13, 0x00, 0x00] := by
  have h16 : (2 : Nat) ^ 16 = 65536 := by norm_num
  rw [h16]
  refine ⟨frame_take_two flags data, ?_, length_field_frame flags data, ?_, ?_, ?_⟩
  · simp only [le16]
    omega
  · intro hL
    have hlf : length_field (tap_write_data_block_with_checksum flags data)
        = data.length + 2 := by
      rw [length_field_frame]
      omega
    refine ⟨?_, ?_, ?_⟩
    · rw [hlf, frame_length]
      omega
    · rw [hlf]
      omega
    · rw [hlf, List.drop_append_of_le_length (by rw [frame_length]; omega),
        List.drop_of_length_le (by rw [frame_length]; omega), List.nil_append]
  · intro h17
    rw [frame_eq, h17]
    simp [fwrite_int16, fputc]
  · have h17 : (code_hdr fname code start_address).length = 17 := by
      simp [code_hdr_eq, hdr_name_length]
    rw [tap_write_code_header, frame_eq, h17]
    simp [fwrite_int16, fputc]

/-- Witness of C17: after the frame of the code payload of the HELLO scenario
a reader stands at the two bytes that follow it, and the length field of the
frame of a 65534-byte payload reads (65534 + 2) mod 2^16. -/
theorem frame_leading_length_witness :
    (tap_write_data_block_with_checksum 0xFF [0x3E, 0x05, 0xC9] ++ [7, 8]).drop
          (2 + length_field (tap_write_data_block_with_checksum 0xFF [0x3E, 0x05, 0xC9]))
        = [7, 8] ∧
      length_field (tap_write_data_block_with_checksum 0xFF (List.replicate 65534 0))
        = ((List.replicate 65534 0).length + 2) % 2 ^ 16 :=
  ⟨((frame_leading_length 0xFF [0x3E, 0x05, 0xC9] [7, 8] [0x63, 0x6F, 0x64, 0x65]
      [0x3E, 0x05, 0xC9] 32768).2.2.2.1 (by decide)).2.2,
    (frame_leading_length 0xFF (List.replicate 65534 0) [] [0x63, 0x6F, 0x64, 0x65]
      [0x3E, 0x05, 0xC9] 32768).2.2.1⟩

/-! ## The listing is well formed and short: C18, C19, C20 -/

/-- The texts the calls of the builder format are the texts of `loader_lines`,
and the line numbers agree. -/
theorem basic_loader_calls_texts (start_address exec_address : Int)
    (screen_file_name : Option (List Nat)) :
    (basic_loader_calls start_address exec_address screen_file_name).map
        (fun c => (c.1.toNat, vsprintf c.2.1 c.2.2))
      = loader_lines start_address exec_address screen_file_name.isSome := by
  have hborder : vsprintf
      (BORDER ++ BLACK ++ [0x3A] ++ PAPER ++ BLACK ++ [0x3A] ++ INK ++ WHITE ++ [0x3A] ++ CLS) []
      = [0xE7, 0xB0, 0x22, 0x30, 0x22, 0x3A, 0xDA, 0xB0, 0x22, 0x30, 0x22, 0x3A, 0xD9,
        0xB0, 0x22, 0x37, 0x22, 0x3A, 0xFB] := by decide
  have hpoke111 : vsprintf (POKE ++ VAL ++ [0x22, 0x32, 0x33, 0x37, 0x33, 0x39, 0x22, 0x2C]
      ++ VAL ++ [0x22, 0x31, 0x31, 0x31, 0x22]) []
      = [0xF4, 0xB0, 0x22, 0x32, 0x33, 0x37, 0x33, 0x39, 0x22, 0x2C, 0xB0, 0x22, 0x31,
        0x31, 0x31, 0x22] := by decide
  have hpoke244 : vsprintf (POKE ++ VAL ++ [0x22, 0x32, 0x33, 0x37, 0x33, 0x39, 0x22, 0x2C]
      ++ VAL ++ [0x22, 0x32, 0x34, 0x34, 0x22]) []
      = [0xF4, 0xB0, 0x22, 0x32, 0x33, 0x37, 0x33, 0x39, 0x22, 0x2C, 0xB0, 0x22, 0x32,
        0x34, 0x34, 0x22] := by decide
  have hload : vsprintf (LOAD ++ [0x22, 0x22] ++ CODE) [] = [0xEF, 0x22, 0x22, 0xAF] := by
    decide
  cases screen_file_name <;>
    simp only [basic_loader_calls, loader_lines, Option.isSome_none, Option.isSome_some,
      Bool.false_eq_true, if_false, if_true, List.map_append, List.map_cons, List.map_nil,
      vsprintf_clear, vsprintf_randomize, hborder, hpoke111, hpoke244, hload] <;>
    rfl

/-- Every text of `loader_lines` has neither a NUL nor a carriage return and
is at most 19 bytes long. -/
theorem loader_lines_texts (start_address exec_address : Int) (screen : Bool)
    (hexec : IsInt32 exec_address) :
    ∀ p ∈ loader_lines start_address exec_address screen,
      (∀ b ∈ p.2, b ≠ 0 ∧ b ≠ 13) ∧ p.2.length ≤ 19 := by
  have hd : ∀ (x : Int) (pre : List Nat), IsInt32 x → (∀ b ∈ pre, b ≠ 0 ∧ b ≠ 13) →
      pre.length ≤ 4 →
      (∀ b ∈ pre ++ format_d x ++ [0x22], b ≠ 0 ∧ b ≠ 13) ∧
        (pre ++ format_d x ++ [0x22]).length ≤ 19 := by
    intro x pre hx hpre hlen
    have hl := format_d_length_le x hx
    refine ⟨?_, ?_⟩
    · intro b hb
      simp only [List.mem_append, List.mem_singleton] at hb
      rcases hb with (hb | hb) | hb
      · exact hpre b hb
      · rcases format_d_mem x b hb with h | h <;> omega
      · omega
    · simp only [List.length_append, List.length_singleton]
      omega
  have hclear := hd (wrap32 (start_address - 1)) [0xFD, 0xB0, 0x22]
    (wrap32_isInt32 _) (by decide) (by decide)
  have hrun := hd exec_address [0xF9, 0xC0, 0xB0, 0x22] hexec (by decide) (by decide)
  intro p hp
  cases screen
  · simp only [loader_lines, Bool.false_eq_true, if_false, List.mem_append, List.mem_cons,
      List.mem_singleton, List.not_mem_nil, or_false] at hp
    rcases hp with (rfl | rfl | rfl) | (rfl | rfl | rfl)
    · exact hclear
    · decide
    · decide
    · decide
    · decide
    · exact hrun
  · simp only [loader_lines, if_true, List.mem_append, List.mem_cons,
      List.mem_singleton, List.not_mem_nil, or_false] at hp
    rcases hp with (rfl | rfl | rfl) | (rfl | rfl | rfl | rfl)
    · exact hclear
    · decide
    · decide
    · decide
    · decide
    · decide
    · exact hrun

/-- C18: for every start address and every 32-bit exec address, with or
without a screen, every text formatted by a call of `create_zx_basic_line`
inside `tap_create_zx_basic_loader` is NUL-free and at most 19 bytes long, so
it fits the 1024-byte staging buffer, `strlen` returns its full length, every
call returns a line and the listing is built. -/
theorem loader_texts_fit_buffer (start_address exec_address : Int)
    (screen_file_name : Option (List Nat)) (hexec : IsInt32 exec_address) :
    basic_loader_listing start_address exec_address screen_file_name
        = run_calls (basic_loader_calls start_address exec_address screen_file_name) ∧
      (∀ c ∈ basic_loader_calls start_address exec_address screen_file_name,
        (∀ b ∈ vsprintf c.2.1 c.2.2, b ≠ 0) ∧
        (vsprintf c.2.1 c.2.2).length ≤ 19 ∧
        (vsprintf c.2.1 c.2.2).length < 1024 ∧
        strlen (vsprintf c.2.1 c.2.2 ++ [0]) = (vsprintf c.2.1 c.2.2).length ∧
        (create_zx_basic_line c.1 c.2.1 c.2.2).isSome = true) ∧
      (basic_loader_listing start_address exec_address screen_file_name).isSome = true := by
  refine ⟨basic_loader_listing_eq_run_calls _ _ _, ?_, ?_⟩
  · intro c hc
    have hmem : (c.1.toNat, vsprintf c.2.1 c.2.2)
        ∈ loader_lines start_address exec_address screen_file_name.isSome := by
      rw [← basic_loader_calls_texts]
      exact List.mem_map_of_mem (fun c => (c.1.toNat, vsprintf c.2.1 c.2.2)) hc
    obtain ⟨h₁, h₂⟩ := loader_lines_texts start_address exec_address _ hexec _ hmem
    have hnul : ∀ b ∈ vsprintf c.2.1 c.2.2, b ≠ 0 := fun b hb => (h₁ b hb).1
    have hlen : (vsprintf c.2.1 c.2.2).length < 1024 :=
      Nat.lt_of_le_of_lt h₂ (by decide)
    refine ⟨hnul, h₂, hlen, strlen_append_nul _ [] hnul, ?_⟩
    rw [create_zx_basic_line_eq c.1 c.2.1 c.2.2 hnul hlen]
    rfl
  · rw [basic_loader_listing_all_lines start_address exec_address screen_file_name hexec]
    rfl

/-- Witness of C18: start address 0 (the text of line 10 is `CLEAR VAL"-1"`),
the lowest 32-bit exec address, and a screen file. -/
theorem loader_texts_fit_buffer_witness :
    basic_loader_listing 0 (-2147483648) (some [0x73])
        = run_calls (basic_loader_calls 0 (-2147483648) (some [0x73])) ∧
      (∀ c ∈ basic_loader_calls 0 (-2147483648) (some [0x73]),
        (∀ b ∈ vsprintf c.2.1 c.2.2, b ≠ 0) ∧
        (vsprintf c.2.1 c.2.2).length ≤ 19 ∧
        (vsprintf c.2.1 c.2.2).length < 1024 ∧
        strlen (vsprintf c.2.1 c.2.2 ++ [0]) = (vsprintf c.2.1 c.2.2).length ∧
        (create_zx_basic_line c.1 c.2.1 c.2.2).isSome = true) ∧
      (basic_loader_listing 0 (-2147483648) (some [0x73])).isSome = true :=
  loader_texts_fit_buffer 0 (-2147483648) (some [0x73]) (by decide)

/-- The length fields read back, with the four bytes of line number and
length field of each line, add up to the length of the listing. -/
theorem sum_read_lengths (lines : List (Nat × List Nat)) :
    ((lines.map as_read).map (fun l => 4 + l.2.1)).sum = (all_lines lines).length := by
  induction lines with
  | nil => simp [all_lines]
  | cons p ls ih =>
    simp only [List.map_cons, List.sum_cons, ih, all_lines, List.length_append,
      encoded_line_length, as_read]
    omega

theorem loader_lines_length (start_address exec_address : Int) (screen : Bool) :
    (loader_lines start_address exec_address screen).length = if screen then 7 else 6 := by
  cases screen <;> simp [loader_lines]

theorem loader_lines_numbers (start_address exec_address : Int) (screen : Bool) :
    (loader_lines start_address exec_address screen).map (fun p => p.1)
      = if screen then [10, 20, 30, 40, 50, 60, 70] else [10, 20, 30, 40, 50, 60] := by
  cases screen <;> simp [loader_lines]

/-- C19: for every start address, every 32-bit exec address and either screen
setting, the listing built by `tap_create_zx_basic_loader` is a well-formed
sequence of lines: reading a big-endian line number and a little-endian
length `n` and then `n` bytes, again and again from offset 0, consumes the
listing exactly in 6 steps (7 with a screen); the last of the `n` bytes of
every line is 0x0D and no earlier one is; the line numbers strictly
increase; and the listing has at least 2 bytes, so that the reads of
`data[0]` and `data[1]` in `tap_write_prg_header` are in bounds. -/
theorem loader_listing_well_formed (name : List Nat) (start_address exec_address : Int)
    (screen_file_name : Option (List Nat)) (hexec : IsInt32 exec_address) :
    ∃ listing ls,
      basic_loader_listing start_address exec_address screen_file_name = some listing ∧
      parse_listing listing = some ls ∧
      ls.length = (if screen_file_name.isSome then 7 else 6) ∧
      (ls.map (fun l => 4 + l.2.1)).sum = listing.length ∧
      (∀ l ∈ ls, l.2.2.length = l.2.1 ∧ l.2.2.getLast? = some 0x0D ∧
        0x0D ∉ l.2.2.dropLast) ∧
      (ls.map (fun l => l.1)).Pairwise (fun a b => a < b) ∧
      2 ≤ listing.length ∧
      (∃ d0 d1 hdr, listing[0]? = some d0 ∧ listing[1]? = some d1 ∧
        prg_hdr name listing = some hdr) := by
  obtain ⟨listing, h₁, h₂, h₃⟩ :=
    parse_basic_loader_listing start_address exec_address screen_file_name hexec
  have hlen := loader_lines_length start_address exec_address screen_file_name.isSome
  have h2 : 2 ≤ listing.length := by
    have := length_le_all_lines_length
      (loader_lines start_address exec_address screen_file_name.isSome)
    rw [← h₂, hlen] at this
    split at this <;> omega
  refine ⟨listing, _, h₁, h₃, ?_, ?_, ?_, ?_, h2, ?_⟩
  · rw [List.length_map, hlen]
  · rw [sum_read_lengths, h₂]
  · intro l hl
    obtain ⟨p, hp, rfl⟩ := List.mem_map.mp hl
    obtain ⟨ht, -⟩ := loader_lines_texts start_address exec_address _ hexec p hp
    refine ⟨by simp [as_read], ?_, ?_⟩
    · simp only [as_read]
      exact List.getLast?_concat _
    · simp only [as_read, List.dropLast_concat]
      intro h13
      exact (ht 13 h13).2 rfl
  · have hnum : ((loader_lines start_address exec_address screen_file_name.isSome).map
        as_read).map (fun l => l.1)
        = (loader_lines start_address exec_address screen_file_name.isSome).map
          (fun p => p.1) := by
      rw [List.map_map]
      rfl
    rw [hnum, loader_lines_numbers]
    cases screen_file_name
    · simp only [Option.isSome_none, Bool.false_eq_true, if_false]
      decide
    · simp only [Option.isSome_some, if_true]
      decide
  · obtain ⟨d0, d1, rest, hform⟩ := exists_cons_cons_of_two_le listing h2
    subst hform
    exact ⟨d0, d1, _, by simp, by simp, prg_hdr_cons name d0 d1 rest⟩

/-- Witness of C19: the HELLO scenario with a screen file. -/
theorem loader_listing_well_formed_witness :
    ∃ listing ls,
      basic_loader_listing 32768 32768 (some [0x73]) = some listing ∧
      parse_listing listing = some ls ∧
      ls.length = (if (some [0x73] : Option (List Nat)).isSome then 7 else 6) ∧
      (ls.map (fun l => 4 + l.2.1)).sum = listing.length ∧
      (∀ l ∈ ls, l.2.2.length = l.2.1 ∧ l.2.2.getLast? = some 0x0D ∧
        0x0D ∉ l.2.2.dropLast) ∧
      (ls.map (fun l => l.1)).Pairwise (fun a b => a < b) ∧
      2 ≤ listing.length ∧
      (∃ d0 d1 hdr, listing[0]? = some d0 ∧ listing[1]? = some d1 ∧
        prg_hdr [72, 69, 76, 76, 79] listing = some hdr) :=
  loader_listing_well_formed [72, 69, 76, 76, 79] 32768 32768 (some [0x73]) (by decide)

theorem getD_hdr (ty : Nat) (l tail : List Nat) (i : Nat) (hl : l.length = 10) :
    (ty :: (l ++ tail)).getD (11 + i) 0 = tail.getD i 0 := by
  rw [show 11 + i = (10 + i) + 1 by omega, List.getD_cons_succ,
    List.getD_eq_getElem?_getD, List.getD_eq_getElem?_getD,
    List.getElem?_append_right (by omega)]
  congr 2
  omega

/-- The byte length of the listing in terms of the printed widths of the two
addresses. -/
theorem all_lines_loader_lines_length (start_address exec_address : Int) (screen : Bool) :
    (all_lines (loader_lines start_address exec_address screen)).length
      = (if screen then 103 else 94) + (format_d (wrap32 (start_address - 1))).length
        + (format_d exec_address).length := by
  cases screen <;>
    simp only [all_lines, loader_lines, encoded_line_length, List.length_append,
      List.length_cons, List.length_nil, List.cons_append, List.nil_append,
      Bool.false_eq_true, if_false, if_true] <;>
    omega

/-- C20: for all 32-bit start and exec addresses, the listing built by
`tap_create_zx_basic_loader` is `94 + d(start-1) + d(exec)` bytes long
without a screen and `103 + d(start-1) + d(exec)` with one, where `d(x)` is
the number of characters `%d` prints for `x` and `start-1` is the `int` the
builder computes (the number `start - 1` unless `start` is the lowest `int`);
it is 104 bytes for start = exec = 32768 without a screen.  Hence the length
is below 256, the high bytes of both length fields of the program header are
0 and the low bytes are the length, and the listing is shorter than the
65533-byte limit of the framer. -/
theorem loader_listing_length (name : List Nat) (start_address exec_address : Int)
    (screen_file_name : Option (List Nat)) (hstart : IsInt32 start_address)
    (hexec : IsInt32 exec_address) :
    (∃ listing hdr,
        basic_loader_listing start_address exec_address screen_file_name = some listing ∧
        listing.length = (if screen_file_name.isSome then 103 else 94)
          + (format_d (wrap32 (start_address - 1))).length + (format_d exec_address).length ∧
        listing.length < 256 ∧ listing.length ≤ 65533 ∧
        prg_hdr name listing = some hdr ∧
        hdr.getD 11 0 = listing.length ∧ hdr.getD 12 0 = 0 ∧
        hdr.getD 15 0 = listing.length ∧ hdr.getD 16 0 = 0) ∧
      (-2147483648 < start_address → wrap32 (start_address - 1) = start_address - 1) ∧
      (basic_loader_listing 32768 32768 none).map List.length = some 104 := by
  refine ⟨?_, ?_, by decide⟩
  · obtain ⟨listing, h₁, h₂, -⟩ :=
      parse_basic_loader_listing start_address exec_address screen_file_name hexec
    have hlen : listing.length = (if screen_file_name.isSome then 103 else 94)
        + (format_d (wrap32 (start_address - 1))).length + (format_d exec_address).length := by
      rw [h₂, all_lines_loader_lines_length]
    have hd₁ := format_d_length_le _ (wrap32_isInt32 (start_address - 1))
    have hd₂ := format_d_length_le _ hexec
    have h256 : listing.length < 256 := by
      rw [hlen]
      split <;> omega
    have h2 : 2 ≤ listing.length := by
      rw [hlen]
      split <;> omega
    obtain ⟨d0, d1, rest, hform⟩ := exists_cons_cons_of_two_le listing h2
    have hrest : rest.length + 2 = listing.length := by
      rw [hform]
      rfl
    have hname := hdr_name_length name
    refine ⟨listing, _, h₁, hlen, h256, by omega, hform ▸ prg_hdr_cons name d0 d1 rest,
      ?_, ?_, ?_, ?_⟩
    · rw [getD_hdr TAP_HDR_BASIC (hdr_name name) _ 0 hname, ← hrest]
      simp only [List.getD_cons_zero]
      omega
    · rw [show (12 : Nat) = 11 + 1 from rfl, getD_hdr TAP_HDR_BASIC (hdr_name name) _ 1 hname]
      simp only [List.getD_cons_zero, List.getD_cons_succ]
      omega
    · rw [show (15 : Nat) = 11 + 4 from rfl, getD_hdr TAP_HDR_BASIC (hdr_name name) _ 4 hname,
        ← hrest]
      simp only [List.getD_cons_zero, List.getD_cons_succ]
      omega
    · rw [show (16 : Nat) = 11 + 5 from rfl, getD_hdr TAP_HDR_BASIC (hdr_name name) _ 5 hname]
      simp only [List.getD_cons_zero, List.getD_cons_succ]
      omega
  · intro hmin
    apply wrap32_of_isInt32
    unfold IsInt32 at hstart ⊢
    omega

/-- Witness of C20: the HELLO scenario. -/
theorem loader_listing_length_witness :
    ∃ listing hdr,
      basic_loader_listing 32768 32768 none = some listing ∧
      listing.length = (if (none : Option (List Nat)).isSome then 103 else 94)
        + (format_d (wrap32 (32768 - 1))).length + (format_d 32768).length ∧
      listing.length < 256 ∧ listing.length ≤ 65533 ∧
      prg_hdr [72, 69, 76, 76, 79] listing = some hdr ∧
      hdr.getD 11 0 = listing.length ∧ hdr.getD 12 0 = 0 ∧
      hdr.getD 15 0 = listing.length ∧ hdr.getD 16 0 = 0 :=
  (loader_listing_length [72, 69, 76, 76, 79] 32768 32768 none (by decide) (by decide)).1

end Code2Tap
